import Mathlib

/-!
Verification of the ToyC compiler front end (lexer, recursive-descent parser
with integrated semantic checks, and the stack-offset symbol table).

The definitions below are a shallow embedding of the C++ sources:
  * `src/src/lexer.cpp` / `src/src/token.h`  — the parser-facing lexer;
  * `src/src/parser.cpp` / `src/src/parser.h` / `src/src/symbol.h` — the parser;
  * `src/src/main.cpp`   — the accept/reject driver;
  * `src/src/symbol_table.cpp` — the offset-assigning symbol table.

Source text is modelled as the list of characters of a string; the C locale
classification functions are restricted to their ASCII meaning, and bytes
outside ASCII classify as neither alphabetic nor numeric, as in the C code.
Loops are modelled by structural recursion on an explicit fuel counter; the
top-level entry points supply fuel exceeding the input length, which the
per-iteration consumption arguments below show is never exhausted.
-/

namespace ToyC

/-- ASCII `std::isspace` (C locale): space, \t, \n, \v, \f, \r. -/
def isSpaceC (c : Char) : Bool :=
  c = ' ' || c = '\t' || c = '\n' || c = Char.ofNat 11 || c = Char.ofNat 12 || c = '\r'

/-- ASCII `std::isdigit`. -/
def isDigitC (c : Char) : Bool :=
  48 ≤ c.toNat && c.toNat ≤ 57

/-- ASCII `std::isalpha` (C locale). -/
def isAlphaC (c : Char) : Bool :=
  (65 ≤ c.toNat && c.toNat ≤ 90) || (97 ≤ c.toNat && c.toNat ≤ 122)

/-- ASCII `std::isalnum` (C locale). -/
def isAlnumC (c : Char) : Bool :=
  isAlphaC c || isDigitC c

/-- Characters continuing an identifier: `std::isalnum(c) || c == '_'`. -/
def isIdentC (c : Char) : Bool :=
  isAlnumC c || c = '_'

/-- `TokenType` from `src/src/token.h`. -/
inductive TokenType where
  | T_EOF
  | T_ID
  | T_NUMBER
  | T_KW_INT
  | T_KW_VOID
  | T_KW_IF
  | T_KW_ELSE
  | T_KW_WHILE
  | T_KW_BREAK
  | T_KW_CONTINUE
  | T_KW_RETURN
  | T_PLUS
  | T_MINUS
  | T_MUL
  | T_DIV
  | T_MOD
  | T_LPAREN
  | T_RPAREN
  | T_LBRACE
  | T_RBRACE
  | T_COMMA
  | T_SEMI
  | T_ASSIGN
  | T_EQ
  | T_NEQ
  | T_LT
  | T_GT
  | T_LE
  | T_GE
  | T_ANDAND
  | T_OROR
  | T_NOT
  | T_UNKNOWN
deriving DecidableEq, Repr

/-- `Token` from `src/src/token.h`. -/
structure Token where
  type : TokenType
  lexeme : String
  line : Nat
deriving DecidableEq, Repr

/-- The C++ default constructor `Token(T_UNKNOWN, "", 1)`. -/
instance : Inhabited Token := ⟨⟨.T_UNKNOWN, "", 1⟩⟩

/-- Single-line comment skip in `Lexer::skip_whitespace_and_comments`:
`while (peek() != '\n' && peek() != '\0') get();` — stops before the
newline (or at an embedded NUL / end of input). -/
def skipToNl : List Char → List Char
  | [] => []
  | c :: cs => if c = '\n' ∨ c = Char.ofNat 0 then c :: cs else skipToNl cs

/-- Block-comment skip loop in `Lexer::skip_whitespace_and_comments`:
scans for `*/`; the flag records whether the comment was closed.
The line counter advances on the newlines consumed by `get()`. -/
def skipBlockComment : List Char → Nat → Bool × List Char × Nat
  | [], ln => (false, [], ln)
  | c :: cs, ln =>
    if c = Char.ofNat 0 then (false, c :: cs, ln)
    else if c = '*' ∧ cs.head? = some '/' then (true, cs.tail, ln)
    else skipBlockComment cs (if c = '\n' then ln + 1 else ln)

/-- `Lexer::skip_whitespace_and_comments`.  Each recursive step consumes at
least one character, so fuel exceeding the input length is never exhausted. -/
def skipWs : Nat → List Char → Nat → List Char × Nat
  | 0, l, ln => (l, ln)
  | f + 1, l, ln =>
    match l with
    | [] => ([], ln)
    | c :: cs =>
      if isSpaceC c then skipWs f cs (if c = '\n' then ln + 1 else ln)
      else if c = '/' ∧ cs.head? = some '/' then skipWs f (skipToNl cs.tail) ln
      else if c = '/' ∧ cs.head? = some '*' then
        let r := skipBlockComment cs.tail ln
        if r.1 then skipWs f r.2.1 r.2.2 else (r.2.1, r.2.2)
      else (c :: cs, ln)

/-- `Lexer::lex_identifier_or_keyword`: maximal `isalnum || '_'` run, then
keyword classification. -/
def lexIdentOrKw (l : List Char) (ln : Nat) : Token × List Char :=
  let s := String.mk (l.takeWhile isIdentC)
  let rest := l.dropWhile isIdentC
  if s = "int" then (Token.mk .T_KW_INT s ln, rest)
  else if s = "void" then (Token.mk .T_KW_VOID s ln, rest)
  else if s = "if" then (Token.mk .T_KW_IF s ln, rest)
  else if s = "else" then (Token.mk .T_KW_ELSE s ln, rest)
  else if s = "while" then (Token.mk .T_KW_WHILE s ln, rest)
  else if s = "break" then (Token.mk .T_KW_BREAK s ln, rest)
  else if s = "continue" then (Token.mk .T_KW_CONTINUE s ln, rest)
  else if s = "return" then (Token.mk .T_KW_RETURN s ln, rest)
  else (Token.mk .T_ID s ln, rest)

/-- The body of `Lexer::lex_number` after the optional minus: a literal
whose first digit is `0` consists of exactly that `0`; otherwise the
maximal digit run is consumed.  `s1` holds the already-consumed sign. -/
def lexNumberGo (s1 : List Char) (l : List Char) (ln : Nat) : Token × List Char :=
  match l with
  | '0' :: cs => (Token.mk .T_NUMBER (String.mk (s1 ++ ['0'])) ln, cs)
  | c :: cs =>
    if isDigitC c then
      (Token.mk .T_NUMBER (String.mk (s1 ++ (c :: cs).takeWhile isDigitC)) ln,
       (c :: cs).dropWhile isDigitC)
    else (Token.mk .T_UNKNOWN (String.mk s1) ln, c :: cs)
  | [] => (Token.mk .T_UNKNOWN (String.mk s1) ln, [])

/-- `Lexer::lex_number`: an optional leading minus is consumed first
(the source comments this with "spec allows -? leading"). -/
def lexNumber (l : List Char) (ln : Nat) : Token × List Char :=
  match l with
  | '-' :: cs => lexNumberGo ['-'] cs ln
  | _ => lexNumberGo [] l ln

/-- Does the list start with a digit?  Mirrors the guard
`i+1 < text.size() && isdigit(text[i+1])` in `Lexer::tokenize`. -/
def headIsDigit : List Char → Bool
  | [] => false
  | c :: _ => isDigitC c

/-- The single-character `switch` at the end of the `Lexer::tokenize` loop. -/
def singleChar (c : Char) (cs : List Char) (ln : Nat) : Token × List Char :=
  match c with
  | '+' => (Token.mk .T_PLUS "+" ln, cs)
  | '-' => (Token.mk .T_MINUS "-" ln, cs)
  | '*' => (Token.mk .T_MUL "*" ln, cs)
  | '/' => (Token.mk .T_DIV "/" ln, cs)
  | '%' => (Token.mk .T_MOD "%" ln, cs)
  | '(' => (Token.mk .T_LPAREN "(" ln, cs)
  | ')' => (Token.mk .T_RPAREN ")" ln, cs)
  | '\x7b' => (Token.mk .T_LBRACE "\x7b" ln, cs)
  | '\x7d' => (Token.mk .T_RBRACE "\x7d" ln, cs)
  | ',' => (Token.mk .T_COMMA "," ln, cs)
  | ';' => (Token.mk .T_SEMI ";" ln, cs)
  | '=' => (Token.mk .T_ASSIGN "=" ln, cs)
  | '<' => (Token.mk .T_LT "<" ln, cs)
  | '>' => (Token.mk .T_GT ">" ln, cs)
  | '!' => (Token.mk .T_NOT "!" ln, cs)
  | '&' => (Token.mk .T_UNKNOWN "&" ln, cs)
  | '|' => (Token.mk .T_UNKNOWN "|" ln, cs)
  | _ => (Token.mk .T_UNKNOWN (String.mk [c]) ln, cs)

/-- One iteration of the `Lexer::tokenize` loop body after whitespace and
comments are skipped: two-character operators are attempted first
(in source order `==`, `!=`, `<=`, `>=`, `&&`, `||`), then identifiers and
keywords, then numbers (a `-` directly followed by a digit enters
`lex_number`), then the single-character `switch`. -/
def lexOne (c : Char) (cs : List Char) (ln : Nat) : Token × List Char :=
  if c = '=' ∧ cs.head? = some '=' then (Token.mk .T_EQ "==" ln, cs.tail)
  else if c = '!' ∧ cs.head? = some '=' then (Token.mk .T_NEQ "!=" ln, cs.tail)
  else if c = '<' ∧ cs.head? = some '=' then (Token.mk .T_LE "<=" ln, cs.tail)
  else if c = '>' ∧ cs.head? = some '=' then (Token.mk .T_GE ">=" ln, cs.tail)
  else if c = '&' ∧ cs.head? = some '&' then (Token.mk .T_ANDAND "&&" ln, cs.tail)
  else if c = '|' ∧ cs.head? = some '|' then (Token.mk .T_OROR "||" ln, cs.tail)
  else if isAlphaC c ∨ c = '_' then lexIdentOrKw (c :: cs) ln
  else if isDigitC c ∨ (c = '-' ∧ headIsDigit cs) then lexNumber (c :: cs) ln
  else singleChar c cs ln

/-- The `Lexer::tokenize` loop.  The loop breaks at end of input or at an
embedded NUL character (C++ `peek()` returns `'\0'` for both) and then the
final EOF token is appended.  Every iteration consumes at least one
character, so fuel exceeding the input length is never exhausted. -/
def tokenizeLoop : Nat → List Char → Nat → List Token
  | 0, _, ln => [Token.mk .T_EOF "" ln]
  | f + 1, l, ln =>
    let r := skipWs (f + 1) l ln
    match r.1 with
    | [] => [Token.mk .T_EOF "" r.2]
    | c :: cs =>
      if c = Char.ofNat 0 then [Token.mk .T_EOF "" r.2]
      else
        let q := lexOne c cs r.2
        q.1 :: tokenizeLoop f q.2 r.2

/-- `Lexer::tokenize` on a whole source string, starting at line 1. -/
def tokenize (s : String) : List Token :=
  tokenizeLoop (s.data.length + 1) s.data 1

/-! ## Parser state (`src/src/parser.h`, `src/src/symbol.h`) -/

/-- `FuncInfo` from `src/src/symbol.h`. -/
structure FuncInfo where
  name : String
  returns_int : Bool
  params : List String
  declared_line : Nat
deriving DecidableEq, Repr

/-- `SymTable` from `src/src/symbol.h`.  The scope vector is kept with the
innermost scope first (C++ `scopes.back()` and the `rbegin→rend` walks both
address the innermost scope first).  Each scope is the association list of
its `name ↦ declared_line` entries; `unordered_map` insertion order is
immaterial because a scope never holds two entries for one name. -/
structure SymTable where
  scopes : List (List (String × Nat))
deriving DecidableEq, Repr

/-- `SymTable::push_scope`. -/
def SymTable.push_scope (t : SymTable) : SymTable :=
  ⟨[] :: t.scopes⟩

/-- `SymTable::pop_scope` (`if(!scopes.empty()) scopes.pop_back()`). -/
def SymTable.pop_scope (t : SymTable) : SymTable :=
  match t.scopes with
  | [] => t
  | _ :: rest => ⟨rest⟩

/-- Membership of a name in one scope (`cur.count(name)`). -/
def scopeHas (sc : List (String × Nat)) (name : String) : Bool :=
  sc.any (fun p => p.1 = name)

/-- `SymTable::declare_var`: fails, leaving the table unchanged, when the
name already exists in the current scope.  The C++ constructor installs one
scope and the parser keeps pushes and pops balanced above it, so the
empty-scopes arm is unreachable there. -/
def SymTable.declare_var (t : SymTable) (name : String) (line : Nat) : Bool × SymTable :=
  match t.scopes with
  | [] => (false, t)
  | cur :: rest =>
    if scopeHas cur name then (false, t)
    else (true, ⟨((name, line) :: cur) :: rest⟩)

/-- `SymTable::has_var`: innermost-to-outermost search. -/
def SymTable.has_var (t : SymTable) (name : String) : Bool :=
  t.scopes.any (fun sc => scopeHas sc name)

/-- `SymTable::var_decl_line`: line of the innermost declaration, `-1` if
the name is nowhere declared. -/
def SymTable.var_decl_line (t : SymTable) (name : String) : Int :=
  match t.scopes.findSome? (fun sc => (sc.find? (fun p => p.1 = name)).map (fun p => p.2)) with
  | some l => (l : Int)
  | none => -1

/-- The `Parser` data members from `src/src/parser.h`.
`functions_declared` is a name set (`std::set`), modelled as a list with
insert-if-absent; `func_table` maps a name to the most recent `FuncInfo`
stored for it (`operator[]` assignment), modelled by consing the new binding
and looking up the first match. -/
structure PState where
  tokens : List Token
  pos : Nat
  cur : Token
  errors : List Nat
  functions_declared : List String
  current_function : String
  func_table : List (String × FuncInfo)
  vartable : SymTable
deriving DecidableEq, Repr

/-- `tokens[p]`; out-of-range access yields the default token (the C++
vector access is only ever in range because the lexer appends `T_EOF`). -/
def tokAt (ts : List Token) (p : Nat) : Token :=
  (ts.get? p).getD default

/-- The `Parser` constructor: `pos = 0; cur = tokens[pos]`, empty error
list, empty function tables, and a symbol table holding the single scope
its constructor pushes. -/
def initP (ts : List Token) : PState :=
  ⟨ts, 0, tokAt ts 0, [], [], "", [], ⟨[[]]⟩⟩

/-- `Parser::advance`: moves only while not already at the last token. -/
def PState.advance (st : PState) : PState :=
  if st.pos + 1 < st.tokens.length then
    { st with pos := st.pos + 1, cur := tokAt st.tokens (st.pos + 1) }
  else st

/-- `Parser::check`. -/
def PState.check (st : PState) (t : TokenType) : Bool :=
  st.cur.type = t

/-- `Parser::match`. -/
def matchTok (t : TokenType) (st : PState) : Bool × PState :=
  if st.check t then (true, st.advance) else (false, st)

/-- `Parser::add_error_line`: append, deduplicated against the immediately
preceding entry only. -/
def addErrorLine (ln : Nat) (st : PState) : PState :=
  if st.errors.getLast? = some ln then st else { st with errors := st.errors ++ [ln] }

/-- The synchronization token set of `Parser::sync_to_stmt`
(note that it contains `T_LBRACE` as well as `T_RBRACE`). -/
def isSyncTok (t : TokenType) : Bool :=
  t = .T_SEMI || t = .T_LBRACE || t = .T_RBRACE || t = .T_KW_INT || t = .T_KW_VOID ||
  t = .T_KW_IF || t = .T_KW_WHILE || t = .T_KW_RETURN || t = .T_KW_BREAK || t = .T_KW_CONTINUE

/-- The skip loop of `Parser::sync_to_stmt`:
`while (!check(T_EOF) && !sync.count(cur.type)) advance();`. -/
def syncLoop : Nat → PState → PState
  | 0, st => st
  | f + 1, st =>
    if st.check .T_EOF || isSyncTok st.cur.type then st
    else syncLoop f st.advance

/-- `Parser::sync_to_stmt`: skip to the next synchronization token, then
consume it when it is a semicolon. -/
def syncToStmt (f : Nat) (st : PState) : PState :=
  let st1 := syncLoop f st
  if st1.check .T_SEMI then st1.advance else st1

/-- The recurring recovery idiom
`if (!X()) { add_error_line(cur.line); sync_to_stmt(); }` (without an early
return): on failure record the error and synchronize, then continue. -/
def recoverSync (f : Nat) (r : Bool × PState) : PState :=
  match r with
  | (false, st) => syncToStmt f (addErrorLine st.cur.line st)
  | (true, st) => st

/-- `std::set::insert`. -/
def insertName (name : String) (l : List String) : List String :=
  if l.contains name then l else l ++ [name]

/-- The return-type consistency check at the end of the `T_KW_RETURN` branch
of `Parser::Stmt` (`ln` is the line of the `return` keyword). -/
def returnTypeCheck (ln : Nat) (hasExpr : Bool) (st : PState) : PState :=
  if st.current_function = "" then addErrorLine ln st
  else
    match st.func_table.find? (fun p => p.1 = st.current_function) with
    | some pr =>
      if pr.2.returns_int then (if hasExpr then st else addErrorLine ln st)
      else (if hasExpr then addErrorLine ln st else st)
    | none => addErrorLine ln st

/-- The parameter-injection prologue of `Parser::Block`: parameters of the
function being parsed are declared in the fresh scope, carrying the
function's declaration line. -/
def injectParams (st : PState) : PState :=
  if st.current_function = "" then st
  else
    match st.func_table.find? (fun p => p.1 = st.current_function) with
    | some pr =>
      { st with vartable :=
          pr.2.params.foldl (fun vt pname => (vt.declare_var pname pr.2.declared_line).2) st.vartable }
    | none => st

/-! ## The recursive-descent parser (`src/src/parser.cpp`)

The mutually recursive procedures are embedded with a fuel argument that
every call decrements; exhausted fuel reports failure with the state left
as it stands.  (The C++ parser can in fact loop forever — for example on
`int main() { void }` the statement loop makes no progress — so a fuel
bound is also semantically honest: every theorem below quantifies over the
fuel or fixes one large enough for its concrete input.) -/

mutual

/-- `Parser::Expr`. -/
def pExpr : Nat → PState → Bool × PState
  | 0, st => (false, st)
  | f + 1, st => pLOr f st

/-- `Parser::LOrExpr`. -/
def pLOr : Nat → PState → Bool × PState
  | 0, st => (false, st)
  | f + 1, st =>
    match pLAnd f st with
    | (false, st1) => (false, st1)
    | (true, st1) => pLOrLoop f st1

/-- The `while (match(T_OROR))` loop of `Parser::LOrExpr`. -/
def pLOrLoop : Nat → PState → Bool × PState
  | 0, st => (false, st)
  | f + 1, st =>
    match matchTok .T_OROR st with
    | (false, st1) => (true, st1)
    | (true, st1) =>
      match pLAnd f st1 with
      | (false, st2) => (false, addErrorLine st2.cur.line st2)
      | (true, st2) => pLOrLoop f st2

/-- `Parser::LAndExpr`. -/
def pLAnd : Nat → PState → Bool × PState
  | 0, st => (false, st)
  | f + 1, st =>
    match pRel f st with
    | (false, st1) => (false, st1)
    | (true, st1) => pLAndLoop f st1

/-- The `while (match(T_ANDAND))` loop of `Parser::LAndExpr`. -/
def pLAndLoop : Nat → PState → Bool × PState
  | 0, st => (false, st)
  | f + 1, st =>
    match matchTok .T_ANDAND st with
    | (false, st1) => (true, st1)
    | (true, st1) =>
      match pRel f st1 with
      | (false, st2) => (false, addErrorLine st2.cur.line st2)
      | (true, st2) => pLAndLoop f st2

/-- `Parser::RelExpr`. -/
def pRel : Nat → PState → Bool × PState
  | 0, st => (false, st)
  | f + 1, st =>
    match pAdd f st with
    | (false, st1) => (false, st1)
    | (true, st1) => pRelLoop f st1

/-- The relational-operator loop of `Parser::RelExpr`. -/
def pRelLoop : Nat → PState → Bool × PState
  | 0, st => (false, st)
  | f + 1, st =>
    if st.check .T_LT || st.check .T_GT || st.check .T_LE || st.check .T_GE ||
       st.check .T_EQ || st.check .T_NEQ then
      match pAdd f st.advance with
      | (false, st2) => (false, addErrorLine st2.cur.line st2)
      | (true, st2) => pRelLoop f st2
    else (true, st)

/-- `Parser::AddExpr`. -/
def pAdd : Nat → PState → Bool × PState
  | 0, st => (false, st)
  | f + 1, st =>
    match pMul f st with
    | (false, st1) => (false, st1)
    | (true, st1) => pAddLoop f st1

/-- The `+`/`-` loop of `Parser::AddExpr`. -/
def pAddLoop : Nat → PState → Bool × PState
  | 0, st => (false, st)
  | f + 1, st =>
    if st.check .T_PLUS || st.check .T_MINUS then
      match pMul f st.advance with
      | (false, st2) => (false, addErrorLine st2.cur.line st2)
      | (true, st2) => pAddLoop f st2
    else (true, st)

/-- `Parser::MulExpr`. -/
def pMul : Nat → PState → Bool × PState
  | 0, st => (false, st)
  | f + 1, st =>
    match pUnary f st with
    | (false, st1) => (false, st1)
    | (true, st1) => pMulLoop f st1

/-- The `*`/`/`/`%` loop of `Parser::MulExpr`. -/
def pMulLoop : Nat → PState → Bool × PState
  | 0, st => (false, st)
  | f + 1, st =>
    if st.check .T_MUL || st.check .T_DIV || st.check .T_MOD then
      match pUnary f st.advance with
      | (false, st2) => (false, addErrorLine st2.cur.line st2)
      | (true, st2) => pMulLoop f st2
    else (true, st)

/-- `Parser::UnaryExpr`. -/
def pUnary : Nat → PState → Bool × PState
  | 0, st => (false, st)
  | f + 1, st =>
    if st.check .T_PLUS || st.check .T_MINUS || st.check .T_NOT then
      match pUnary f st.advance with
      | (false, st2) => (false, addErrorLine st2.cur.line st2)
      | (true, st2) => (true, st2)
    else pPrimary f st

/-- The argument loop of the call case in `Parser::PrimaryExpr`.  A failing
argument records the error and aborts the whole primary. -/
def pArgsLoop : Nat → PState → Bool × PState
  | 0, st => (false, st)
  | f + 1, st =>
    match pExpr f st with
    | (false, st1) => (false, addErrorLine st1.cur.line st1)
    | (true, st1) =>
      match matchTok .T_COMMA st1 with
      | (true, st2) => pArgsLoop f st2
      | (false, st2) => (true, st2)

/-- `Parser::PrimaryExpr`: identifier (callee check / variable-use check),
number, or parenthesized expression. -/
def pPrimary : Nat → PState → Bool × PState
  | 0, st => (false, st)
  | f + 1, st =>
    if st.check .T_ID then
      let name := st.cur.lexeme
      let ln := st.cur.line
      let st1 := st.advance
      match matchTok .T_LPAREN st1 with
      | (true, st2) =>
        let pr :=
          if st2.check .T_RPAREN then (true, st2)
          else pArgsLoop f st2
        match pr with
        | (false, st3) => (false, st3)
        | (true, st3) =>
          match matchTok .T_RPAREN st3 with
          | (false, st4) => (false, addErrorLine st4.cur.line st4)
          | (true, st4) =>
            if st4.functions_declared.contains name || name = st4.current_function then (true, st4)
            else (true, addErrorLine ln st4)
      | (false, st2) =>
        if st2.vartable.has_var name then (true, st2)
        else (true, addErrorLine ln st2)
    else if st.check .T_NUMBER then (true, st.advance)
    else
      match matchTok .T_LPAREN st with
      | (true, st1) =>
        match pExpr f st1 with
        | (false, st2) => (false, addErrorLine st2.cur.line st2)
        | (true, st2) =>
          match matchTok .T_RPAREN st2 with
          | (false, st3) => (false, addErrorLine st3.cur.line st3)
          | (true, st3) => (true, st3)
      | (false, st1) => (false, st1)

/-- `Parser::Stmt`. -/
def pStmt : Nat → PState → Bool × PState
  | 0, st => (false, st)
  | f + 1, st =>
    if st.check .T_LBRACE then pBlock f st
    else
      match matchTok .T_SEMI st with
      | (true, st1) => (true, st1)
      | (false, st1) =>
        if st1.check .T_KW_INT then
          let st2 := st1.advance
          if ¬ st2.check .T_ID then (false, syncToStmt f (addErrorLine st2.cur.line st2))
          else
            let vname := st2.cur.lexeme
            let st3 := st2.advance
            match matchTok .T_ASSIGN st3 with
            | (false, st4) => (false, syncToStmt f (addErrorLine st4.cur.line st4))
            | (true, st4) =>
              match pExpr f st4 with
              | (false, st5) => (false, syncToStmt f (addErrorLine st5.cur.line st5))
              | (true, st5) =>
                match matchTok .T_SEMI st5 with
                | (false, st6) => (false, syncToStmt f (addErrorLine st6.cur.line st6))
                | (true, st6) =>
                  (true, { st6 with vartable := (st6.vartable.declare_var vname st6.cur.line).2 })
        else if st1.check .T_KW_IF then
          let st2 := st1.advance
          match matchTok .T_LPAREN st2 with
          | (false, st3) => (false, syncToStmt f (addErrorLine st3.cur.line st3))
          | (true, st3) =>
            let st4 := recoverSync f (pExpr f st3)
            let st5 := recoverSync f (matchTok .T_RPAREN st4)
            let st6 := recoverSync f (pStmt f st5)
            if st6.check .T_KW_ELSE then
              (true, recoverSync f (pStmt f st6.advance))
            else (true, st6)
        else if st1.check .T_KW_WHILE then
          let st2 := st1.advance
          match matchTok .T_LPAREN st2 with
          | (false, st3) => (false, syncToStmt f (addErrorLine st3.cur.line st3))
          | (true, st3) =>
            let st4 := recoverSync f (pExpr f st3)
            let st5 := recoverSync f (matchTok .T_RPAREN st4)
            (true, recoverSync f (pStmt f st5))
        else if st1.check .T_KW_BREAK then
          (true, recoverSync f (matchTok .T_SEMI st1.advance))
        else if st1.check .T_KW_CONTINUE then
          (true, recoverSync f (matchTok .T_SEMI st1.advance))
        else if st1.check .T_KW_RETURN then
          let ln := st1.cur.line
          let st2 := st1.advance
          if st2.check .T_SEMI then
            match matchTok .T_SEMI st2 with
            | (false, st3) => (false, syncToStmt f (addErrorLine st3.cur.line st3))
            | (true, st3) => (true, returnTypeCheck ln false st3)
          else
            match pExpr f st2 with
            | (false, st3) =>
              let st4 := syncToStmt f (addErrorLine st3.cur.line st3)
              (false, if st4.check .T_SEMI then st4.advance else st4)
            | (true, st3) =>
              match matchTok .T_SEMI st3 with
              | (false, st4) => (false, syncToStmt f (addErrorLine st4.cur.line st4))
              | (true, st4) => (true, returnTypeCheck ln true st4)
        else if st1.check .T_ID then
          let savePos := st1.pos
          let saveCur := st1.cur
          let name := st1.cur.lexeme
          let st2 := st1.advance
          if st2.check .T_ASSIGN then
            let st3 := st2.advance
            match pExpr f st3 with
            | (false, st4) => (false, syncToStmt f (addErrorLine st4.cur.line st4))
            | (true, st4) =>
              match matchTok .T_SEMI st4 with
              | (false, st5) => (false, syncToStmt f (addErrorLine st5.cur.line st5))
              | (true, st5) =>
                if st5.vartable.has_var name then (true, st5)
                else (true, addErrorLine saveCur.line st5)
          else
            let st3 := { st2 with pos := savePos, cur := saveCur }
            match pExpr f st3 with
            | (false, st4) => (false, syncToStmt f (addErrorLine st4.cur.line st4))
            | (true, st4) =>
              match matchTok .T_SEMI st4 with
              | (false, st5) => (false, syncToStmt f (addErrorLine st5.cur.line st5))
              | (true, st5) => (true, st5)
        else
          match pExpr f st1 with
          | (true, st2) =>
            match matchTok .T_SEMI st2 with
            | (false, st3) => (false, syncToStmt f (addErrorLine st3.cur.line st3))
            | (true, st3) => (true, st3)
          | (false, st2) => (false, syncToStmt f (addErrorLine st2.cur.line st2))

/-- The `while (!check(T_RBRACE) && !check(T_EOF))` statement loop of
`Parser::Block` (a failing statement synchronizes and the loop goes on). -/
def pBlockLoop : Nat → PState → PState
  | 0, st => st
  | f + 1, st =>
    if ¬ st.check .T_RBRACE ∧ ¬ st.check .T_EOF then
      let st1 :=
        match pStmt f st with
        | (false, s) => syncToStmt f s
        | (true, s) => s
      pBlockLoop f st1
    else st

/-- `Parser::Block`: consume `{`, push a scope, inject the current
function's parameters, run the statement loop, and pop the scope on both
the success and the missing-`}` paths. -/
def pBlock : Nat → PState → Bool × PState
  | 0, st => (false, st)
  | f + 1, st =>
    match matchTok .T_LBRACE st with
    | (false, st1) => (false, addErrorLine st1.cur.line st1)
    | (true, st1) =>
      let st2 := { st1 with vartable := st1.vartable.push_scope }
      let st3 := injectParams st2
      let st4 := pBlockLoop f st3
      match matchTok .T_RBRACE st4 with
      | (false, st5) =>
        let st6 := addErrorLine st5.cur.line st5
        (false, { st6 with vartable := st6.vartable.pop_scope })
      | (true, st5) => (true, { st5 with vartable := st5.vartable.pop_scope })

end

/-- The inline parameter-list loop of `Parser::FuncDef`; returns the
function info extended with the parsed parameter names.  A malformed
parameter records an error, synchronizes and leaves the loop. -/
def pParamLoop : Nat → FuncInfo → PState → FuncInfo × PState
  | 0, fi, st => (fi, st)
  | f + 1, fi, st =>
    match matchTok .T_KW_INT st with
    | (false, st1) => (fi, syncToStmt f (addErrorLine st1.cur.line st1))
    | (true, st1) =>
      if ¬ st1.check .T_ID then (fi, syncToStmt f (addErrorLine st1.cur.line st1))
      else
        let fi1 := { fi with params := fi.params ++ [st1.cur.lexeme] }
        let st2 := st1.advance
        match matchTok .T_COMMA st2 with
        | (true, st3) => pParamLoop f fi1 st3
        | (false, st3) => (fi1, st3)

/-- Lines 90-94 of `Parser::FuncDef`: record an error when the function
name (the current token) is already declared, then insert the name into
`functions_declared`.  The cursor still rests on the name token. -/
def registerFuncName (st : PState) : PState :=
  let st2 :=
    if st.functions_declared.contains st.cur.lexeme then addErrorLine st.cur.line st else st
  { st2 with functions_declared := insertName st.cur.lexeme st2.functions_declared }

/-- The tail of `Parser::FuncDef` after `(` was consumed: the inline
parameter list, the `)` (an error is recorded but parsing continues when it
is missing), registration of the `FuncInfo` before the body is parsed,
`current_function` set for the body and cleared afterwards. -/
def registerFuncInfo (fname : String) (fi : FuncInfo) (st : PState) : PState :=
  { st with
    func_table := (fname, fi) :: st.func_table,
    functions_declared := insertName fname st.functions_declared,
    current_function := fname }

def funcDefTail (f : Nat) (returnsInt : Bool) (declLine : Nat) (fname : String)
    (st : PState) : Bool × PState :=
  let pr :=
    if ¬ st.check .T_RPAREN then pParamLoop f ⟨fname, returnsInt, [], declLine⟩ st
    else (⟨fname, returnsInt, [], declLine⟩, st)
  let st6 :=
    match matchTok .T_RPAREN pr.2 with
    | (true, s) => s
    | (false, s) => addErrorLine s.cur.line s
  match pBlock f (registerFuncInfo fname pr.1 st6) with
  | (ok, st8) => (ok, { st8 with current_function := "" })

/-- `Parser::FuncDef`.  The function name enters `functions_declared`
before the body is parsed (so recursive calls resolve, `registerFuncName`),
and the remainder is `funcDefTail`. -/
def pFuncDef : Nat → PState → Bool × PState
  | 0, st => (false, st)
  | f + 1, st =>
    if ¬ (st.check .T_KW_INT || st.check .T_KW_VOID) then (false, st)
    else
      if ¬ (st.advance).check .T_ID then
        (false, syncToStmt f (addErrorLine (st.advance).cur.line st.advance))
      else
        match matchTok .T_LPAREN ((registerFuncName st.advance).advance) with
        | (false, st5) => (false, syncToStmt f (addErrorLine st5.cur.line st5))
        | (true, st5) =>
          funcDefTail f (st.check .T_KW_INT) st.cur.line (st.advance).cur.lexeme st5

/-- The top-level error-recovery skip in `Parser::CompUnit`:
advance to the next `int`/`void` or to the end of input. -/
def skipToTop : Nat → PState → PState
  | 0, st => st
  | f + 1, st =>
    if ¬ st.check .T_EOF ∧ st.cur.type ≠ .T_KW_INT ∧ st.cur.type ≠ .T_KW_VOID then
      skipToTop f st.advance
    else st

/-- `Parser::CompUnit`: `FuncDef` until end of input, with top-level
recovery on failure. -/
def pCompUnit : Nat → PState → PState
  | 0, st => st
  | f + 1, st =>
    if ¬ st.check .T_EOF then
      let st1 :=
        match pFuncDef f st with
        | (false, s) => skipToTop f (addErrorLine s.cur.line s)
        | (true, s) => s
      pCompUnit f st1
    else st

/-- `Parser::parse`: parse the compilation unit, then apply the `main`
discipline: a missing `main` records the line of the first token (line 1
when the token list is empty); a present `main` with a missing table entry
records the first token's line; otherwise a non-`int` return type or a
non-empty parameter list records the declaration line of `main`. -/
def pParse (f : Nat) (st : PState) : PState :=
  let st1 := pCompUnit f st
  if ¬ st1.functions_declared.contains "main" then
    addErrorLine (if st1.tokens.isEmpty then 1 else (st1.tokens.headD default).line) st1
  else
    match st1.func_table.find? (fun p => p.1 = "main") with
    | none => addErrorLine (st1.tokens.headD default).line st1
    | some pr =>
      if ¬ pr.2.returns_int || pr.2.params.length ≠ 0 then
        addErrorLine pr.2.declared_line st1
      else st1

/-- Lex and parse a source string with the given fuel. -/
def runParser (f : Nat) (src : String) : PState :=
  pParse f (initP (tokenize src))

/-- `Parser::is_accept`. -/
def is_accept (st : PState) : Bool :=
  st.errors.isEmpty

/-- The output of `src/src/main.cpp`, one line per list entry: `accept`, or
`reject` followed by the collected error lines in order. -/
def programOutput (f : Nat) (src : String) : List String :=
  let st := runParser f src
  if is_accept st then ["accept"] else "reject" :: st.errors.map (fun n => toString n)

/-! ## The standalone symbol table (`src/src/symbol_table.cpp`)

The header `symbol_table.h` is not in the repository, so the class shapes
are reconstructed from every use in `symbol_table.cpp`: a `Symbol` carries
name, kind, data type, scope level, a stack offset (the `.cpp` only ever
writes it in `allocate_stack_space`, so its constructor default is
immaterial and modelled as `0`) and function parameter types; a `Scope` is
a name-keyed symbol map with a parent pointer, modelled as the list of
scopes from innermost to outermost (the global scope last); the
`scope_stack_size` vector is modelled with its back at the head of a
list.  `vector::back` on the empty vector is undefined in C++; the
constructor makes the vector nonempty and `exit_scope` pops only above
the global scope, so reachable tables never exercise the `headD`
default. -/

inductive SymbolType where
  | VARIABLE | FUNCTION | PARAMETER
deriving DecidableEq, Repr

inductive DataType where
  | INT | VOID
deriving DecidableEq, Repr

/-- A table entry, per the constructor and field writes in the `.cpp`. -/
structure Symbol where
  name : String
  symbol_type : SymbolType
  data_type : DataType
  scope_level : Int
  stack_offset : Int := 0
  param_types : List DataType := []
deriving DecidableEq, Repr

/-- One lexical scope: its level and its symbol map (`std::map` keyed by
name; a scope never holds two entries for one name, so insertion order —
modelled by appending — is immaterial to lookups). -/
structure Scope where
  level : Int
  symbols : List (String × Symbol) := []
deriving DecidableEq, Repr

/-- `Scope::is_defined_local`. -/
def Scope.is_defined_local (sc : Scope) (name : String) : Bool :=
  sc.symbols.any (fun p => p.1 = name)

/-- `Scope::define`: refuses a duplicate name, else stores the symbol. -/
def Scope.define (sc : Scope) (sym : Symbol) : Bool × Scope :=
  if sc.is_defined_local sym.name then (false, sc)
  else (true, { sc with symbols := sc.symbols ++ [(sym.name, sym)] })

/-- `Scope::lookup_local`. -/
def Scope.lookup_local (sc : Scope) (name : String) : Option Symbol :=
  (sc.symbols.find? (fun p => p.1 = name)).map (fun p => p.2)

/-- `SymbolTable`: the parent-linked scope chain from `current_scope` to
`global_scope`, the per-scope slot counters, and the next scope level. -/
structure SymbolTable where
  scopes : List Scope
  scope_stack_size : List Int
  next_scope_level : Int
deriving DecidableEq, Repr

/-- `SymbolTable::SymbolTable()`: one global scope at level `0`, its
counter at `0`, next level `1`. -/
def SymbolTable.init : SymbolTable :=
  ⟨[⟨0, []⟩], [0], 1⟩

/-- `SymbolTable::enter_scope`. -/
def SymbolTable.enter_scope (t : SymbolTable) : SymbolTable :=
  ⟨⟨t.next_scope_level, []⟩ :: t.scopes, 0 :: t.scope_stack_size, t.next_scope_level + 1⟩

/-- `SymbolTable::exit_scope`: a no-op at the global scope (no parent). -/
def SymbolTable.exit_scope (t : SymbolTable) : SymbolTable :=
  match t.scopes with
  | _ :: rest@(_ :: _) =>
    { t with scopes := rest, scope_stack_size := t.scope_stack_size.tail }
  | _ => t

/-- `SymbolTable::get_current_stack_size`. -/
def SymbolTable.get_current_stack_size (t : SymbolTable) : Int :=
  t.scope_stack_size.headD 0

/-- `SymbolTable::allocate_stack_space`: for a variable or a parameter the
current counter is incremented FIRST and the symbol's offset is then
`∓ 4 ×` the incremented counter; other symbol kinds are untouched.  Returns
the updated symbol together with the updated table. -/
def SymbolTable.allocate_stack_space (t : SymbolTable) (sym : Symbol) : Symbol × SymbolTable :=
  match sym.symbol_type with
  | .VARIABLE =>
    ({ sym with stack_offset := -((t.scope_stack_size.headD 0 + 1) * 4) },
     { t with scope_stack_size := (t.scope_stack_size.headD 0 + 1) :: t.scope_stack_size.tail })
  | .PARAMETER =>
    ({ sym with stack_offset := (t.scope_stack_size.headD 0 + 1) * 4 },
     { t with scope_stack_size := (t.scope_stack_size.headD 0 + 1) :: t.scope_stack_size.tail })
  | .FUNCTION => (sym, t)

/-- `SymbolTable::define_variable`: builds the symbol, allocates stack
space (mutating the counter), THEN attempts `Scope::define` in the current
scope; the allocation is not undone when the definition fails. -/
def SymbolTable.define_variable (t : SymbolTable) (name : String) (ty : DataType) : Bool × SymbolTable :=
  match t.scopes with
  | [] => (false, t)
  | cur :: rest =>
    let p := t.allocate_stack_space ⟨name, .VARIABLE, ty, cur.level, 0, []⟩
    let q := cur.define p.1
    (q.1, { p.2 with scopes := q.2 :: rest })

/-- `SymbolTable::define_parameter`: as `define_variable` with kind
`PARAMETER` (hence a positive offset). -/
def SymbolTable.define_parameter (t : SymbolTable) (name : String) (ty : DataType) : Bool × SymbolTable :=
  match t.scopes with
  | [] => (false, t)
  | cur :: rest =>
    let p := t.allocate_stack_space ⟨name, .PARAMETER, ty, cur.level, 0, []⟩
    let q := cur.define p.1
    (q.1, { p.2 with scopes := q.2 :: rest })

/-- `SymbolTable::define_function`: installed in the global scope at level
`0`, with no stack allocation. -/
def SymbolTable.define_function (t : SymbolTable) (name : String) (rt : DataType)
    (pts : List DataType) : Bool × SymbolTable :=
  match t.scopes.getLast? with
  | none => (false, t)
  | some g =>
    let q := g.define ⟨name, .FUNCTION, rt, 0, 0, pts⟩
    (q.1, { t with scopes := t.scopes.dropLast ++ [q.2] })

/-! ## Auxiliary definitions used by the theorems below -/

def ErrsOk (l : List Nat) : Prop := l.Chain' (· ≠ ·)

def StOk (st st2 : PState) : Prop :=
  (ErrsOk st.errors → ErrsOk st2.errors) ∧
  st2.vartable.scopes.length = st.vartable.scopes.length ∧
  st2.tokens = st.tokens

/-- The stop condition of the skip loop in `Parser::sync_to_stmt`:
end of input or a member of the synchronization set. -/
def stopTok (t : TokenType) : Bool :=
  decide (t = .T_EOF) || isSyncTok t

/-- Modelled from the spec's words (for comparison with `isSyncTok`): the
synchronization points the specification lists are `;`, `}` and the
statement starters `int`, `void`, `if`, `while`, `return`, `break`,
`continue`; the specification does not list `{`. -/
def specSyncStop (t : TokenType) : Bool :=
  t = .T_SEMI || t = .T_RBRACE || t = .T_KW_INT || t = .T_KW_VOID || t = .T_KW_IF ||
  t = .T_KW_WHILE || t = .T_KW_RETURN || t = .T_KW_BREAK || t = .T_KW_CONTINUE

/-- The token stream `* ; EOF` used to witness the synchronization fact. -/
def syncWitnessToks : List Token :=
  [Token.mk .T_MUL "*" 1, Token.mk .T_SEMI ";" 1, Token.mk .T_EOF "" 1]

/-- The specification's factorial example, with a self-recursive call. -/
def factSrc : String :=
  "int fact(int n) \x7b\nif (n <= 1) return 1;\nreturn n * fact(n - 1);\n\x7d\nint main() \x7b return fact(5); \x7d"

/-- The token stream of the declaration statement `int x = 5;`. -/
def declTokens : List Token :=
  [Token.mk .T_KW_INT "int" 1, Token.mk .T_ID "x" 1, Token.mk .T_ASSIGN "=" 1,
   Token.mk .T_NUMBER "5" 1, Token.mk .T_SEMI ";" 1, Token.mk .T_EOF "" 1]

/-- A parser state about to parse `int x = 5;` whose current scope already
declares `x`, at line 7. -/
def redeclState : PState :=
  { initP declTokens with vartable := ⟨[[("x", 7)]]⟩ }

/-! ## Lexer lemmas -/

/-- Shape of the lexemes `Lexer::lex_number` can produce for `T_NUMBER`
tokens: an optional leading minus followed by at least one digit. -/
def numShape (s : String) : Bool :=
  match s.data with
  | [] => false
  | '-' :: rest => ¬ rest.isEmpty && rest.all isDigitC
  | l => l.all isDigitC

/-- The reserved words of `Lexer::lex_identifier_or_keyword`. -/
def kwStrings : List String :=
  ["int", "void", "if", "else", "while", "break", "continue", "return"]

theorem isDigitC_toNat {c : Char} (h : isDigitC c = true) :
    48 ≤ c.toNat ∧ c.toNat ≤ 57 := by
  simpa [isDigitC] using h

theorem isDigitC_ne_of_lit {c d : Char} (h : isDigitC c = true) (hd : isDigitC d = false) :
    c ≠ d := by
  intro he
  rw [he, hd] at h
  cases h

theorem isDigitC_not_alpha {c : Char} (h : isDigitC c = true) :
    (isAlphaC c ∨ c = '_') = False := by
  obtain ⟨h1, h2⟩ := isDigitC_toNat h
  simp only [eq_iff_iff, iff_false]
  rintro (ha | ha)
  · simp only [isAlphaC, Bool.or_eq_true, Bool.and_eq_true, decide_eq_true_eq] at ha
    omega
  · have : c.toNat = 95 := by rw [ha]; rfl
    omega

theorem lexIdentOrKw_not_number (l : List Char) (ln : Nat)
    (h : ((lexIdentOrKw l ln).1).type = .T_NUMBER) : False := by
  simp only [lexIdentOrKw] at h
  repeat' split at h
  all_goals simp at h

theorem lexIdentOrKw_id (l : List Char) (ln : Nat)
    (h : ((lexIdentOrKw l ln).1).type = .T_ID) :
    ((lexIdentOrKw l ln).1).lexeme = String.mk (l.takeWhile isIdentC) ∧
    ¬ ((lexIdentOrKw l ln).1).lexeme ∈ kwStrings := by
  simp only [lexIdentOrKw] at h ⊢
  repeat' split at h
  all_goals simp_all [kwStrings]

theorem singleChar_not_number (c : Char) (cs : List Char) (ln : Nat)
    (h : ((singleChar c cs ln).1).type = .T_NUMBER) : False := by
  unfold singleChar at h
  split at h
  all_goals simp at h

theorem singleChar_not_id (c : Char) (cs : List Char) (ln : Nat)
    (h : ((singleChar c cs ln).1).type = .T_ID) : False := by
  unfold singleChar at h
  split at h
  all_goals simp at h

theorem all_takeWhile (p : Char → Bool) (l : List Char) :
    (l.takeWhile p).all p = true := by
  induction l with
  | nil => rfl
  | cons c cs ih =>
    rw [List.takeWhile_cons]
    split
    · simp [List.all_cons, *]
    · rfl

theorem numShape_minus (rest : List Char) :
    numShape (String.mk ('-' :: rest)) = (¬ rest.isEmpty && rest.all isDigitC) := rfl

theorem numShape_not_minus (c : Char) (rest : List Char) (hc : c ≠ '-') :
    numShape (String.mk (c :: rest)) = (c :: rest).all isDigitC := by
  unfold numShape
  split
  next heq => exact absurd (show c :: rest = ([] : List Char) from heq) (by simp)
  next rest2 heq =>
    have heq2 : c :: rest = '-' :: rest2 := heq
    injection heq2 with h1 _
    exact absurd h1 hc
  next => rfl

theorem lexNumberGo_shape (s1 l : List Char) (ln : Nat)
    (hs : s1 = [] ∨ s1 = ['-'])
    (h : ((lexNumberGo s1 l ln).1).type = .T_NUMBER) :
    numShape ((lexNumberGo s1 l ln).1).lexeme = true := by
  unfold lexNumberGo at h ⊢
  split at h
  · -- first digit is 0: the lexeme is s1 ++ "0"
    rcases hs with rfl | rfl <;> simp [numShape] <;> decide
  · -- general first digit: the maximal digit run
    rename_i c cs2 hne0
    split at h
    case isTrue hdig =>
      have hcne : c ≠ '-' := by
        intro he
        subst he
        exact absurd hdig (by decide)
      rw [if_pos hdig, List.takeWhile_cons_of_pos hdig]
      rcases hs with rfl | rfl
      · rw [List.nil_append, numShape_not_minus _ _ hcne]
        simp [List.all_cons, hdig, all_takeWhile isDigitC cs2]
      · rw [List.cons_append, List.nil_append, numShape_minus]
        simp [List.all_cons, hdig, all_takeWhile isDigitC cs2]
    case isFalse => exact absurd h (by simp)
  · exact absurd h (by simp)

theorem lexNumber_shape (l : List Char) (ln : Nat)
    (h : ((lexNumber l ln).1).type = .T_NUMBER) :
    numShape ((lexNumber l ln).1).lexeme = true := by
  unfold lexNumber at h ⊢
  split at h
  · exact lexNumberGo_shape _ _ _ (Or.inr rfl) h
  · exact lexNumberGo_shape _ _ _ (Or.inl rfl) h

theorem lexNumberGo_not_id (s1 l : List Char) (ln : Nat)
    (h : ((lexNumberGo s1 l ln).1).type = .T_ID) : False := by
  unfold lexNumberGo at h
  split at h
  · simp at h
  · split at h <;> simp at h
  · simp at h

theorem lexNumber_not_id (l : List Char) (ln : Nat)
    (h : ((lexNumber l ln).1).type = .T_ID) : False := by
  unfold lexNumber at h
  split at h <;> exact lexNumberGo_not_id _ _ _ h

/-- Case analysis of one `Lexer::tokenize` loop iteration: a produced
`T_NUMBER` token has a `-?digits` lexeme, and a produced `T_ID` token is
never spelled like a keyword. -/
theorem lexOne_cases (c : Char) (cs : List Char) (ln : Nat) (t : Token) (rest : List Char)
    (hE : lexOne c cs ln = (t, rest)) :
    (t.type = .T_NUMBER → numShape t.lexeme = true) ∧
    (t.type = .T_ID → ¬ t.lexeme ∈ kwStrings) := by
  unfold lexOne at hE
  split at hE
  · injection hE with h1 h2; subst h1; simp
  · split at hE
    · injection hE with h1 h2; subst h1; simp
    · split at hE
      · injection hE with h1 h2; subst h1; simp
      · split at hE
        · injection hE with h1 h2; subst h1; simp
        · split at hE
          · injection hE with h1 h2; subst h1; simp
          · split at hE
            · injection hE with h1 h2; subst h1; simp
            · split at hE
              · -- identifier or keyword
                have h1 : t = (lexIdentOrKw (c :: cs) ln).1 := by rw [hE]
                subst h1
                exact ⟨fun h => absurd h (fun h => lexIdentOrKw_not_number _ _ h),
                       fun h => (lexIdentOrKw_id _ _ h).2⟩
              · split at hE
                · -- number
                  have h1 : t = (lexNumber (c :: cs) ln).1 := by rw [hE]
                  subst h1
                  exact ⟨fun h => lexNumber_shape _ _ h,
                         fun h => absurd h (fun h => lexNumber_not_id _ _ h)⟩
                · -- single character
                  have h1 : t = (singleChar c cs ln).1 := by rw [hE]
                  subst h1
                  exact ⟨fun h => absurd h (fun h => singleChar_not_number _ _ _ h),
                         fun h => absurd h (fun h => singleChar_not_id _ _ _ h)⟩

/-- Every token produced by the `Lexer::tokenize` loop is either the final
EOF token or the first component of some `lexOne` step. -/
theorem tokenizeLoop_forall (P : Token → Prop)
    (hlex : ∀ c cs ln, P (lexOne c cs ln).1)
    (heof : ∀ ln, P (Token.mk .T_EOF "" ln)) :
    ∀ (f : Nat) (l : List Char) (ln : Nat), ∀ t ∈ tokenizeLoop f l ln, P t := by
  intro f
  induction f with
  | zero =>
    intro l ln t ht
    simp only [tokenizeLoop, List.mem_singleton] at ht
    subst ht
    exact heof _
  | succ f ih =>
    intro l ln t ht
    rw [tokenizeLoop] at ht
    split at ht
    · simp only [List.mem_singleton] at ht
      subst ht
      exact heof _
    · split at ht
      · simp only [List.mem_singleton] at ht
        subst ht
        exact heof _
      · simp only [List.mem_cons] at ht
        rcases ht with rfl | ht
        · exact hlex _ _ _
        · exact ih _ _ _ ht

theorem tokenize_forall (P : Token → Prop)
    (hlex : ∀ c cs ln, P (lexOne c cs ln).1)
    (heof : ∀ ln, P (Token.mk .T_EOF "" ln)) :
    ∀ (s : String), ∀ t ∈ tokenize s, P t := by
  intro s t ht
  exact tokenizeLoop_forall P hlex heof _ _ _ t ht

/-! ## Claim C1 -/

/-- C1 is false on the code: for the input `-5` the lexer emits a single
integer-literal token whose lexeme is `-5` — the leading minus IS consumed
by `Lexer::lex_number`, no `T_MINUS` token is emitted, and the literal's
lexeme does not consist of digits only. -/
theorem lexer_minus_counterexample :
    tokenize "-5" = [Token.mk .T_NUMBER "-5" 1, Token.mk .T_EOF "" 1] ∧
    (Token.mk .T_NUMBER "-5" 1).lexeme.data.all isDigitC = false ∧
    ¬ (Token.mk .T_MINUS "-" 1) ∈ tokenize "-5" := by
  decide

/-- C1 (amended): a `-` immediately followed by a digit is consumed by the
lexer as the sign of the integer literal (so `-5` lexes as the single
literal token `-5`); a `-` not followed by a digit is emitted as its own
`T_MINUS` token; and every emitted integer-literal lexeme is an optional
leading minus followed by digits. -/
theorem lexer_minus_amended :
    (∀ (s : String), ∀ t ∈ tokenize s, t.type = .T_NUMBER → numShape t.lexeme = true)
    ∧ tokenize "-5" = [Token.mk .T_NUMBER "-5" 1, Token.mk .T_EOF "" 1]
    ∧ (∀ (cs : List Char) (ln : Nat), headIsDigit cs = false →
        lexOne '-' cs ln = (Token.mk .T_MINUS "-" ln, cs)) := by
  refine ⟨?_, by decide, ?_⟩
  · exact tokenize_forall _
      (fun c cs ln => (lexOne_cases c cs ln _ _ rfl).1)
      (fun ln h => by simp at h)
  · intro cs ln hd
    unfold lexOne
    rw [if_neg (by rintro ⟨h, -⟩; exact absurd h (by decide))]
    rw [if_neg (by rintro ⟨h, -⟩; exact absurd h (by decide))]
    rw [if_neg (by rintro ⟨h, -⟩; exact absurd h (by decide))]
    rw [if_neg (by rintro ⟨h, -⟩; exact absurd h (by decide))]
    rw [if_neg (by rintro ⟨h, -⟩; exact absurd h (by decide))]
    rw [if_neg (by rintro ⟨h, -⟩; exact absurd h (by decide))]
    rw [if_neg (by rintro (h | h) <;> exact absurd h (by decide))]
    rw [if_neg (by rintro (h | ⟨-, h⟩); exacts [absurd h (by decide), absurd (hd ▸ h) (by decide)])]
    rfl

/-- C1 (witness): the universal lexeme-shape fact applied to the literal
token of `-5`, and the standalone-minus fact applied at end of input. -/
theorem lexer_minus_witness :
    numShape (Token.mk .T_NUMBER "-5" 1).lexeme = true ∧
    lexOne '-' [] 1 = (Token.mk .T_MINUS "-" 1, []) :=
  ⟨lexer_minus_amended.1 "-5" (Token.mk .T_NUMBER "-5" 1) (by decide) rfl,
   lexer_minus_amended.2.2 [] 1 rfl⟩

/-! ## Claim C3 -/

/-- C3 is false on the code: `007` is lexed by `Lexer::lex_number` as three
integer-literal tokens `0`, `0`, `7`, not as one literal for the maximal
digit run. -/
theorem lexer_digit_run_counterexample :
    tokenize "007" = [Token.mk .T_NUMBER "0" 1, Token.mk .T_NUMBER "0" 1,
      Token.mk .T_NUMBER "7" 1, Token.mk .T_EOF "" 1] := by
  decide

/-- C3 (amended): at a digit position the lexer emits a single
integer-literal token; its lexeme is the entire maximal digit run when the
first digit is not `0`, and is exactly `0` otherwise. -/
theorem lexer_digit_run_amended :
    (∀ (c : Char) (cs : List Char) (ln : Nat), isDigitC c = true → c ≠ '0' →
       lexOne c cs ln =
         (Token.mk .T_NUMBER (String.mk ((c :: cs).takeWhile isDigitC)) ln,
          (c :: cs).dropWhile isDigitC))
    ∧ (∀ (cs : List Char) (ln : Nat),
        lexOne '0' cs ln = (Token.mk .T_NUMBER "0" ln, cs)) := by
  constructor
  · intro c cs ln hdig h0
    unfold lexOne
    rw [if_neg (by rintro ⟨h, -⟩; exact absurd h (isDigitC_ne_of_lit hdig (by decide)))]
    rw [if_neg (by rintro ⟨h, -⟩; exact absurd h (isDigitC_ne_of_lit hdig (by decide)))]
    rw [if_neg (by rintro ⟨h, -⟩; exact absurd h (isDigitC_ne_of_lit hdig (by decide)))]
    rw [if_neg (by rintro ⟨h, -⟩; exact absurd h (isDigitC_ne_of_lit hdig (by decide)))]
    rw [if_neg (by rintro ⟨h, -⟩; exact absurd h (isDigitC_ne_of_lit hdig (by decide)))]
    rw [if_neg (by rintro ⟨h, -⟩; exact absurd h (isDigitC_ne_of_lit hdig (by decide)))]
    rw [if_neg (by rw [isDigitC_not_alpha hdig]; exact id)]
    rw [if_pos (Or.inl hdig)]
    unfold lexNumber
    split
    · rename_i cs2 heq
      injection heq with h1 h2
      exact absurd h1 (isDigitC_ne_of_lit hdig (by decide))
    · unfold lexNumberGo
      split
      · rename_i cs2 heq
        injection heq with h1 h2
        exact absurd h1 h0
      · rename_i c2 cs2 hne0 heq
        injection heq with h1 h2
        subst h1
        subst h2
        rw [if_pos hdig]
        simp
      · rename_i heq
        exact absurd heq (by simp)
  · intro cs ln
    rfl

/-- C3 (witness): the two digit-run facts applied at concrete inputs. -/
theorem lexer_digit_run_witness :
    lexOne '7' ['8', 'x'] 1 = (Token.mk .T_NUMBER "78" 1, ['x']) ∧
    lexOne '0' ['7'] 1 = (Token.mk .T_NUMBER "0" 1, ['7']) :=
  ⟨by have h := lexer_digit_run_amended.1 '7' ['8', 'x'] 1 (by decide) (by decide); exact h,
   lexer_digit_run_amended.2 ['7'] 1⟩

/-! ## Claim C6 -/

/-- C6: the lexer obeys longest match.  At a position starting one of the
two-character operators, `lexOne` emits that single two-character token
(`==` becomes `T_EQ`, never two `T_ASSIGN`); a maximal identifier run
spelling a keyword is classified as that keyword and never as `T_ID` —
with each of the eight reserved words pinned to its own token kind
(`int` to `T_KW_INT`, and so on) — and consequently no `T_ID` token of
any input is spelled like a keyword. -/
theorem lexer_longest_match :
    (∀ (cs : List Char) (ln : Nat),
       lexOne '<' ('=' :: cs) ln = (Token.mk .T_LE "<=" ln, cs)
     ∧ lexOne '>' ('=' :: cs) ln = (Token.mk .T_GE ">=" ln, cs)
     ∧ lexOne '=' ('=' :: cs) ln = (Token.mk .T_EQ "==" ln, cs)
     ∧ lexOne '!' ('=' :: cs) ln = (Token.mk .T_NEQ "!=" ln, cs)
     ∧ lexOne '&' ('&' :: cs) ln = (Token.mk .T_ANDAND "&&" ln, cs)
     ∧ lexOne '|' ('|' :: cs) ln = (Token.mk .T_OROR "||" ln, cs))
    ∧ (∀ (l : List Char) (ln : Nat),
        String.mk (l.takeWhile isIdentC) ∈ kwStrings →
        ((lexIdentOrKw l ln).1).type ≠ .T_ID ∧
        ((lexIdentOrKw l ln).1).lexeme = String.mk (l.takeWhile isIdentC))
    ∧ (∀ (l : List Char) (ln : Nat),
        (String.mk (l.takeWhile isIdentC) = "int" →
          (lexIdentOrKw l ln).1 = Token.mk .T_KW_INT "int" ln)
      ∧ (String.mk (l.takeWhile isIdentC) = "void" →
          (lexIdentOrKw l ln).1 = Token.mk .T_KW_VOID "void" ln)
      ∧ (String.mk (l.takeWhile isIdentC) = "if" →
          (lexIdentOrKw l ln).1 = Token.mk .T_KW_IF "if" ln)
      ∧ (String.mk (l.takeWhile isIdentC) = "else" →
          (lexIdentOrKw l ln).1 = Token.mk .T_KW_ELSE "else" ln)
      ∧ (String.mk (l.takeWhile isIdentC) = "while" →
          (lexIdentOrKw l ln).1 = Token.mk .T_KW_WHILE "while" ln)
      ∧ (String.mk (l.takeWhile isIdentC) = "break" →
          (lexIdentOrKw l ln).1 = Token.mk .T_KW_BREAK "break" ln)
      ∧ (String.mk (l.takeWhile isIdentC) = "continue" →
          (lexIdentOrKw l ln).1 = Token.mk .T_KW_CONTINUE "continue" ln)
      ∧ (String.mk (l.takeWhile isIdentC) = "return" →
          (lexIdentOrKw l ln).1 = Token.mk .T_KW_RETURN "return" ln))
    ∧ (∀ (s : String), ∀ t ∈ tokenize s, t.type = .T_ID → ¬ t.lexeme ∈ kwStrings) := by
  refine ⟨fun cs ln => ⟨rfl, rfl, rfl, rfl, rfl, rfl⟩, ?_, ?_, ?_⟩
  · intro l ln hm
    simp only [kwStrings, List.mem_cons, List.not_mem_nil, or_false] at hm
    unfold lexIdentOrKw
    rcases hm with h | h | h | h | h | h | h | h <;> simp [h]
  · intro l ln
    refine ⟨?_, ?_, ?_, ?_, ?_, ?_, ?_, ?_⟩ <;> (intro h; simp [lexIdentOrKw, h])
  · exact tokenize_forall _
      (fun c cs ln => (lexOne_cases c cs ln _ _ rfl).2)
      (fun ln h => by simp at h)

/-- C6 (witness): the keyword facts applied at concrete inputs, including
the pinning of the run `int` to the token kind `T_KW_INT`. -/
theorem lexer_longest_match_witness :
    ((lexIdentOrKw ("int".data) 1).1).type ≠ .T_ID ∧
    (lexIdentOrKw ("int".data) 1).1 = Token.mk .T_KW_INT "int" 1 ∧
    ¬ (Token.mk .T_ID "intx" 1).lexeme ∈ kwStrings :=
  ⟨(lexer_longest_match.2.1 ("int".data) 1 (by decide)).1,
   (lexer_longest_match.2.2.1 ("int".data) 1).1 (by decide),
   lexer_longest_match.2.2.2 "intx" (Token.mk .T_ID "intx" 1) (by decide) rfl⟩

/-! ## Parser state invariants

`ErrsOk` is the adjacent-deduplication invariant of the error-line list;
`StOk st st2` says a parser step from `st` to `st2` preserves it and leaves
the scope-stack depth unchanged.  Every `Parser` procedure preserves
`StOk` because the only write to `errors` is `add_error_line` and every
`push_scope` is matched by a `pop_scope`. -/

theorem StOk.refl {st : PState} : StOk st st := ⟨id, Eq.refl _, Eq.refl _⟩

theorem StOk.trans {a b c : PState} (h1 : StOk a b) (h2 : StOk b c) : StOk a c :=
  ⟨fun h => h2.1 (h1.1 h), h2.2.1.trans h1.2.1, h2.2.2.trans h1.2.2⟩

theorem errsOk_append {l : List Nat} {ln : Nat} (h : ErrsOk l)
    (hne : l.getLast? ≠ some ln) : ErrsOk (l ++ [ln]) := by
  unfold ErrsOk at h ⊢
  rw [List.chain'_append]
  refine ⟨h, List.chain'_singleton _, ?_⟩
  intro x hx y hy
  simp only [List.head?_cons, Option.mem_def, Option.some.injEq] at hy
  subst hy
  intro he
  exact hne (he ▸ hx)

theorem addErrorLine_ok (ln : Nat) (st : PState) : StOk st (addErrorLine ln st) := by
  unfold addErrorLine
  split
  · exact StOk.refl
  next hne => exact ⟨fun h => errsOk_append h hne, Eq.refl _, Eq.refl _⟩

theorem advance_ok (st : PState) : StOk st st.advance := by
  unfold PState.advance
  split <;> exact StOk.refl

theorem matchTok_ok (t : TokenType) (st : PState) : StOk st (matchTok t st).2 := by
  unfold matchTok
  split
  · exact advance_ok st
  · exact StOk.refl

theorem syncLoop_ok (f : Nat) (st : PState) : StOk st (syncLoop f st) := by
  induction f generalizing st with
  | zero => exact StOk.refl
  | succ f ih =>
    rw [syncLoop]
    split
    · exact StOk.refl
    · exact (advance_ok st).trans (ih _)

theorem syncToStmt_ok (f : Nat) (st : PState) : StOk st (syncToStmt f st) := by
  simp only [syncToStmt]
  split
  · exact (syncLoop_ok f st).trans (advance_ok _)
  · exact syncLoop_ok f st

theorem recoverSync_ok (f : Nat) (st : PState) (r : Bool × PState) (h : StOk st r.2) :
    StOk st (recoverSync f r) := by
  rcases r with ⟨b, s⟩
  cases b
  · exact h.trans ((addErrorLine_ok _ _).trans (syncToStmt_ok _ _))
  · exact h

theorem returnTypeCheck_ok (ln : Nat) (hasE : Bool) (st : PState) :
    StOk st (returnTypeCheck ln hasE st) := by
  unfold returnTypeCheck
  repeat' split
  all_goals first
    | exact StOk.refl
    | exact addErrorLine_ok _ _

theorem declare_var_scopes_length (t : SymTable) (name : String) (ln : Nat) :
    ((t.declare_var name ln).2).scopes.length = t.scopes.length := by
  unfold SymTable.declare_var
  split
  · rfl
  · split
    · rfl
    · rename_i cur rest heq _
      rw [heq]
      rfl

theorem foldl_declare_scopes_length (ps : List String) (dl : Nat) (vt : SymTable) :
    (ps.foldl (fun a pname => (a.declare_var pname dl).2) vt).scopes.length =
      vt.scopes.length := by
  induction ps generalizing vt with
  | nil => rfl
  | cons p ps ih => rw [List.foldl_cons, ih, declare_var_scopes_length]

theorem injectParams_ok (st : PState) : StOk st (injectParams st) := by
  unfold injectParams
  split
  · exact StOk.refl
  · split
    · exact ⟨id, foldl_declare_scopes_length _ _ _, Eq.refl _⟩
    · exact StOk.refl

theorem pop_scope_length_succ {t : SymTable} {n : Nat} (h : t.scopes.length = n + 1) :
    (t.pop_scope).scopes.length = n := by
  unfold SymTable.pop_scope
  split
  · rename_i heq
    rw [heq] at h
    cases h
  · rename_i x rest heq
    rw [heq] at h
    simpa using h

theorem push_scope_length (t : SymTable) :
    (t.push_scope).scopes.length = t.scopes.length + 1 := rfl

/-- Every procedure of the mutual parser block preserves `StOk`: the error
list only ever grows through `add_error_line` and the scope depth is
restored on every return path. -/
theorem parser_ok : ∀ f : Nat,
    (∀ st, StOk st (pExpr f st).2) ∧
    (∀ st, StOk st (pLOr f st).2) ∧
    (∀ st, StOk st (pLOrLoop f st).2) ∧
    (∀ st, StOk st (pLAnd f st).2) ∧
    (∀ st, StOk st (pLAndLoop f st).2) ∧
    (∀ st, StOk st (pRel f st).2) ∧
    (∀ st, StOk st (pRelLoop f st).2) ∧
    (∀ st, StOk st (pAdd f st).2) ∧
    (∀ st, StOk st (pAddLoop f st).2) ∧
    (∀ st, StOk st (pMul f st).2) ∧
    (∀ st, StOk st (pMulLoop f st).2) ∧
    (∀ st, StOk st (pUnary f st).2) ∧
    (∀ st, StOk st (pArgsLoop f st).2) ∧
    (∀ st, StOk st (pPrimary f st).2) ∧
    (∀ st, StOk st (pStmt f st).2) ∧
    (∀ st, StOk st (pBlock f st).2) ∧
    (∀ st, StOk st (pBlockLoop f st)) := by
  intro f
  induction f with
  | zero =>
    exact ⟨fun _ => StOk.refl, fun _ => StOk.refl, fun _ => StOk.refl, fun _ => StOk.refl,
      fun _ => StOk.refl, fun _ => StOk.refl, fun _ => StOk.refl, fun _ => StOk.refl,
      fun _ => StOk.refl, fun _ => StOk.refl, fun _ => StOk.refl, fun _ => StOk.refl,
      fun _ => StOk.refl, fun _ => StOk.refl, fun _ => StOk.refl, fun _ => StOk.refl,
      fun _ => StOk.refl⟩
  | succ f ih =>
    obtain ⟨ihExpr, ihLOr, ihLOrLoop, ihLAnd, ihLAndLoop, ihRel, ihRelLoop, ihAdd,
      ihAddLoop, ihMul, ihMulLoop, ihUnary, ihArgsLoop, ihPrimary, ihStmt, ihBlock,
      ihBlockLoop⟩ := ih
    refine ⟨?_, ?_, ?_, ?_, ?_, ?_, ?_, ?_, ?_, ?_, ?_, ?_, ?_, ?_, ?_, ?_, ?_⟩
    · -- pExpr
      intro st
      rw [pExpr]
      exact ihLOr st
    · -- pLOr
      intro st
      rw [pLOr]
      try dsimp only
      rcases hE : pLAnd f st with ⟨b, s⟩
      have h1 := ihLAnd st
      rw [hE] at h1
      cases b
      · try dsimp only
        exact h1
      · try dsimp only
        exact h1.trans (ihLOrLoop s)
    · -- pLOrLoop
      intro st
      rw [pLOrLoop]
      try dsimp only
      rcases hE : matchTok .T_OROR st with ⟨b, s⟩
      have h1 := matchTok_ok .T_OROR st
      rw [hE] at h1
      cases b
      · try dsimp only
        exact h1
      · try dsimp only
        rcases hE2 : pLAnd f s with ⟨b2, s2⟩
        have h2 := ihLAnd s
        rw [hE2] at h2
        cases b2
        · try dsimp only
          exact h1.trans (h2.trans (addErrorLine_ok _ _))
        · try dsimp only
          exact h1.trans (h2.trans (ihLOrLoop s2))
    · -- pLAnd
      intro st
      rw [pLAnd]
      try dsimp only
      rcases hE : pRel f st with ⟨b, s⟩
      have h1 := ihRel st
      rw [hE] at h1
      cases b
      · try dsimp only
        exact h1
      · try dsimp only
        exact h1.trans (ihLAndLoop s)
    · -- pLAndLoop
      intro st
      rw [pLAndLoop]
      try dsimp only
      rcases hE : matchTok .T_ANDAND st with ⟨b, s⟩
      have h1 := matchTok_ok .T_ANDAND st
      rw [hE] at h1
      cases b
      · try dsimp only
        exact h1
      · try dsimp only
        rcases hE2 : pRel f s with ⟨b2, s2⟩
        have h2 := ihRel s
        rw [hE2] at h2
        cases b2
        · try dsimp only
          exact h1.trans (h2.trans (addErrorLine_ok _ _))
        · try dsimp only
          exact h1.trans (h2.trans (ihLAndLoop s2))
    · -- pRel
      intro st
      rw [pRel]
      try dsimp only
      rcases hE : pAdd f st with ⟨b, s⟩
      have h1 := ihAdd st
      rw [hE] at h1
      cases b
      · try dsimp only
        exact h1
      · try dsimp only
        exact h1.trans (ihRelLoop s)
    · -- pRelLoop
      intro st
      rw [pRelLoop]
      split
      · try dsimp only
        rcases hE : pAdd f st.advance with ⟨b, s⟩
        have h1 := ihAdd st.advance
        rw [hE] at h1
        have h0 := (advance_ok st).trans h1
        cases b
        · try dsimp only
          exact h0.trans (addErrorLine_ok _ _)
        · try dsimp only
          exact h0.trans (ihRelLoop s)
      · try dsimp only
        exact StOk.refl
    · -- pAdd
      intro st
      rw [pAdd]
      try dsimp only
      rcases hE : pMul f st with ⟨b, s⟩
      have h1 := ihMul st
      rw [hE] at h1
      cases b
      · try dsimp only
        exact h1
      · try dsimp only
        exact h1.trans (ihAddLoop s)
    · -- pAddLoop
      intro st
      rw [pAddLoop]
      split
      · try dsimp only
        rcases hE : pMul f st.advance with ⟨b, s⟩
        have h1 := ihMul st.advance
        rw [hE] at h1
        have h0 := (advance_ok st).trans h1
        cases b
        · try dsimp only
          exact h0.trans (addErrorLine_ok _ _)
        · try dsimp only
          exact h0.trans (ihAddLoop s)
      · try dsimp only
        exact StOk.refl
    · -- pMul
      intro st
      rw [pMul]
      try dsimp only
      rcases hE : pUnary f st with ⟨b, s⟩
      have h1 := ihUnary st
      rw [hE] at h1
      cases b
      · try dsimp only
        exact h1
      · try dsimp only
        exact h1.trans (ihMulLoop s)
    · -- pMulLoop
      intro st
      rw [pMulLoop]
      split
      · try dsimp only
        rcases hE : pUnary f st.advance with ⟨b, s⟩
        have h1 := ihUnary st.advance
        rw [hE] at h1
        have h0 := (advance_ok st).trans h1
        cases b
        · try dsimp only
          exact h0.trans (addErrorLine_ok _ _)
        · try dsimp only
          exact h0.trans (ihMulLoop s)
      · try dsimp only
        exact StOk.refl
    · -- pUnary
      intro st
      rw [pUnary]
      split
      · try dsimp only
        rcases hE : pUnary f st.advance with ⟨b, s⟩
        have h1 := ihUnary st.advance
        rw [hE] at h1
        have h0 := (advance_ok st).trans h1
        cases b
        · try dsimp only
          exact h0.trans (addErrorLine_ok _ _)
        · try dsimp only
          exact h0
      · try dsimp only
        exact ihPrimary st
    · -- pArgsLoop
      intro st
      rw [pArgsLoop]
      try dsimp only
      rcases hE : pExpr f st with ⟨b, s⟩
      have h1 := ihExpr st
      rw [hE] at h1
      cases b
      · try dsimp only
        exact h1.trans (addErrorLine_ok _ _)
      · try dsimp only
        rcases hE2 : matchTok .T_COMMA s with ⟨b2, s2⟩
        have h2 := matchTok_ok .T_COMMA s
        rw [hE2] at h2
        cases b2
        · try dsimp only
          exact h1.trans h2
        · try dsimp only
          exact h1.trans (h2.trans (ihArgsLoop s2))
    · -- pPrimary
      intro st
      rw [pPrimary]
      split
      · -- identifier head
        try dsimp only
        try dsimp only
        rcases hE : matchTok .T_LPAREN st.advance with ⟨b, s⟩
        have h1 := matchTok_ok .T_LPAREN st.advance
        rw [hE] at h1
        have h0 := (advance_ok st).trans h1
        cases b
        · -- variable usage
          try dsimp only
          split
          · try dsimp only
            exact h0
          · try dsimp only
            exact h0.trans (addErrorLine_ok _ _)
        · -- call
          try dsimp only
          try dsimp only
          rcases hE2 : (if s.check .T_RPAREN = true then (true, s) else pArgsLoop f s)
            with ⟨b2, s2⟩
          have h2 : StOk s s2 := by
            by_cases hc : s.check .T_RPAREN = true
            · try dsimp only
              rw [if_pos hc] at hE2
              injection hE2 with hb hs
              subst hs
              exact StOk.refl
            · try dsimp only
              rw [if_neg hc] at hE2
              have h3 := ihArgsLoop s
              rw [hE2] at h3
              exact h3
          cases b2
          · try dsimp only
            exact h0.trans h2
          · try dsimp only
            rcases hE3 : matchTok .T_RPAREN s2 with ⟨b3, s3⟩
            have h3 := matchTok_ok .T_RPAREN s2
            rw [hE3] at h3
            cases b3
            · try dsimp only
              exact h0.trans (h2.trans (h3.trans (addErrorLine_ok _ _)))
            · try dsimp only
              split
              · try dsimp only
                exact h0.trans (h2.trans h3)
              · try dsimp only
                exact h0.trans (h2.trans (h3.trans (addErrorLine_ok _ _)))
      · try dsimp only
        split
        · -- number
          try dsimp only
          exact advance_ok st
        · -- parenthesized expression
          try dsimp only
          try dsimp only
          rcases hE : matchTok .T_LPAREN st with ⟨b, s⟩
          have h1 := matchTok_ok .T_LPAREN st
          rw [hE] at h1
          cases b
          · try dsimp only
            exact h1
          · try dsimp only
            rcases hE2 : pExpr f s with ⟨b2, s2⟩
            have h2 := ihExpr s
            rw [hE2] at h2
            cases b2
            · try dsimp only
              exact h1.trans (h2.trans (addErrorLine_ok _ _))
            · try dsimp only
              rcases hE3 : matchTok .T_RPAREN s2 with ⟨b3, s3⟩
              have h3 := matchTok_ok .T_RPAREN s2
              rw [hE3] at h3
              cases b3
              · try dsimp only
                exact h1.trans (h2.trans (h3.trans (addErrorLine_ok _ _)))
              · try dsimp only
                exact h1.trans (h2.trans h3)
    · -- pStmt
      intro st
      rw [pStmt]
      by_cases hBrace : st.check .T_LBRACE = true
      · rw [if_pos hBrace]
        exact ihBlock st
      · rw [if_neg hBrace]
        rcases hE : matchTok .T_SEMI st with ⟨b, s1⟩
        have h1 := matchTok_ok .T_SEMI st
        rw [hE] at h1
        cases b with
        | true => exact h1
        | false =>
          try dsimp only
          by_cases hInt : s1.check .T_KW_INT = true
          · rw [if_pos hInt]
            by_cases hId : ¬ (s1.advance).check .T_ID = true
            · rw [if_pos hId]
              exact h1.trans ((advance_ok s1).trans
                ((addErrorLine_ok _ _).trans (syncToStmt_ok _ _)))
            · rw [if_neg hId]
              rcases hE2 : matchTok .T_ASSIGN s1.advance.advance with ⟨b2, s4⟩
              have h2 := matchTok_ok .T_ASSIGN s1.advance.advance
              rw [hE2] at h2
              have h12 := h1.trans ((advance_ok s1).trans ((advance_ok s1.advance).trans h2))
              cases b2
              · try dsimp only
                exact h12.trans ((addErrorLine_ok _ _).trans (syncToStmt_ok _ _))
              · try dsimp only
                rcases hE3 : pExpr f s4 with ⟨b3, s5⟩
                have h3 := ihExpr s4
                rw [hE3] at h3
                cases b3
                · try dsimp only
                  exact h12.trans (h3.trans ((addErrorLine_ok _ _).trans (syncToStmt_ok _ _)))
                · try dsimp only
                  rcases hE4 : matchTok .T_SEMI s5 with ⟨b4, s6⟩
                  have h4 := matchTok_ok .T_SEMI s5
                  rw [hE4] at h4
                  cases b4
                  · try dsimp only
                    exact h12.trans (h3.trans (h4.trans
                      ((addErrorLine_ok _ _).trans (syncToStmt_ok _ _))))
                  · try dsimp only
                    exact h12.trans (h3.trans (h4.trans
                      ⟨id, declare_var_scopes_length _ _ _, Eq.refl _⟩))
          · rw [if_neg hInt]
            by_cases hIf : s1.check .T_KW_IF = true
            · rw [if_pos hIf]
              rcases hE2 : matchTok .T_LPAREN s1.advance with ⟨b2, s3⟩
              have h2 := matchTok_ok .T_LPAREN s1.advance
              rw [hE2] at h2
              have h12 := h1.trans ((advance_ok s1).trans h2)
              cases b2
              · try dsimp only
                exact h12.trans ((addErrorLine_ok _ _).trans (syncToStmt_ok _ _))
              · try dsimp only
                have h3 := recoverSync_ok f s3 (pExpr f s3) (ihExpr s3)
                have h4 := recoverSync_ok f _
                  (matchTok .T_RPAREN (recoverSync f (pExpr f s3)))
                  (matchTok_ok _ _)
                have h5 := recoverSync_ok f _
                  (pStmt f (recoverSync f (matchTok .T_RPAREN (recoverSync f (pExpr f s3)))))
                  (ihStmt _)
                split
                · have h6 := recoverSync_ok f
                    (recoverSync f (pStmt f (recoverSync f (matchTok .T_RPAREN
                      (recoverSync f (pExpr f s3)))))).advance
                    (pStmt f (recoverSync f (pStmt f (recoverSync f (matchTok .T_RPAREN
                      (recoverSync f (pExpr f s3)))))).advance)
                    (ihStmt _)
                  exact h12.trans (h3.trans (h4.trans (h5.trans ((advance_ok _).trans h6))))
                · exact h12.trans (h3.trans (h4.trans h5))
            · rw [if_neg hIf]
              by_cases hWhile : s1.check .T_KW_WHILE = true
              · rw [if_pos hWhile]
                rcases hE2 : matchTok .T_LPAREN s1.advance with ⟨b2, s3⟩
                have h2 := matchTok_ok .T_LPAREN s1.advance
                rw [hE2] at h2
                have h12 := h1.trans ((advance_ok s1).trans h2)
                cases b2
                · try dsimp only
                  exact h12.trans ((addErrorLine_ok _ _).trans (syncToStmt_ok _ _))
                · try dsimp only
                  have h3 := recoverSync_ok f s3 (pExpr f s3) (ihExpr s3)
                  have h4 := recoverSync_ok f _
                    (matchTok .T_RPAREN (recoverSync f (pExpr f s3)))
                    (matchTok_ok _ _)
                  have h5 := recoverSync_ok f _
                    (pStmt f (recoverSync f (matchTok .T_RPAREN (recoverSync f (pExpr f s3)))))
                    (ihStmt _)
                  exact h12.trans (h3.trans (h4.trans h5))
              · rw [if_neg hWhile]
                by_cases hBreak : s1.check .T_KW_BREAK = true
                · rw [if_pos hBreak]
                  exact h1.trans ((advance_ok s1).trans
                    (recoverSync_ok f _ (matchTok .T_SEMI s1.advance) (matchTok_ok _ _)))
                · rw [if_neg hBreak]
                  by_cases hCont : s1.check .T_KW_CONTINUE = true
                  · rw [if_pos hCont]
                    exact h1.trans ((advance_ok s1).trans
                      (recoverSync_ok f _ (matchTok .T_SEMI s1.advance) (matchTok_ok _ _)))
                  · rw [if_neg hCont]
                    by_cases hRet : s1.check .T_KW_RETURN = true
                    · rw [if_pos hRet]
                      by_cases hSemi : (s1.advance).check .T_SEMI = true
                      · rw [if_pos hSemi]
                        rcases hE2 : matchTok .T_SEMI s1.advance with ⟨b2, s3⟩
                        have h2 := matchTok_ok .T_SEMI s1.advance
                        rw [hE2] at h2
                        have h12 := h1.trans ((advance_ok s1).trans h2)
                        cases b2
                        · try dsimp only
                          exact h12.trans ((addErrorLine_ok _ _).trans (syncToStmt_ok _ _))
                        · try dsimp only
                          exact h12.trans (returnTypeCheck_ok _ _ _)
                      · rw [if_neg hSemi]
                        rcases hE2 : pExpr f s1.advance with ⟨b2, s3⟩
                        have h2 := ihExpr s1.advance
                        rw [hE2] at h2
                        have h12 := h1.trans ((advance_ok s1).trans h2)
                        cases b2
                        · try dsimp only
                          have hs := h12.trans
                            ((addErrorLine_ok s3.cur.line s3).trans
                              (syncToStmt_ok f (addErrorLine s3.cur.line s3)))
                          split
                          · exact hs.trans (advance_ok _)
                          · exact hs
                        · try dsimp only
                          rcases hE3 : matchTok .T_SEMI s3 with ⟨b3, s4⟩
                          have h3 := matchTok_ok .T_SEMI s3
                          rw [hE3] at h3
                          cases b3
                          · try dsimp only
                            exact h12.trans (h3.trans
                              ((addErrorLine_ok _ _).trans (syncToStmt_ok _ _)))
                          · try dsimp only
                            exact h12.trans (h3.trans (returnTypeCheck_ok _ _ _))
                    · rw [if_neg hRet]
                      by_cases hIdent : s1.check .T_ID = true
                      · rw [if_pos hIdent]
                        by_cases hAsg : (s1.advance).check .T_ASSIGN = true
                        · rw [if_pos hAsg]
                          rcases hE2 : pExpr f s1.advance.advance with ⟨b2, s4⟩
                          have h2 := ihExpr s1.advance.advance
                          rw [hE2] at h2
                          have h12 := h1.trans ((advance_ok s1).trans
                            ((advance_ok s1.advance).trans h2))
                          cases b2
                          · try dsimp only
                            exact h12.trans ((addErrorLine_ok _ _).trans (syncToStmt_ok _ _))
                          · try dsimp only
                            rcases hE3 : matchTok .T_SEMI s4 with ⟨b3, s5⟩
                            have h3 := matchTok_ok .T_SEMI s4
                            rw [hE3] at h3
                            cases b3
                            · try dsimp only
                              exact h12.trans (h3.trans
                                ((addErrorLine_ok _ _).trans (syncToStmt_ok _ _)))
                            · try dsimp only
                              split
                              · exact h12.trans h3
                              · exact h12.trans (h3.trans (addErrorLine_ok _ _))
                        · rw [if_neg hAsg]
                          have hback : StOk s1.advance
                              { s1.advance with pos := s1.pos, cur := s1.cur } :=
                            ⟨id, Eq.refl _, Eq.refl _⟩
                          rcases hE2 : pExpr f { s1.advance with pos := s1.pos, cur := s1.cur }
                            with ⟨b2, s4⟩
                          have h2 := ihExpr { s1.advance with pos := s1.pos, cur := s1.cur }
                          rw [hE2] at h2
                          have h12 := h1.trans ((advance_ok s1).trans (hback.trans h2))
                          cases b2
                          · try dsimp only
                            exact h12.trans ((addErrorLine_ok _ _).trans (syncToStmt_ok _ _))
                          · try dsimp only
                            rcases hE3 : matchTok .T_SEMI s4 with ⟨b3, s5⟩
                            have h3 := matchTok_ok .T_SEMI s4
                            rw [hE3] at h3
                            cases b3
                            · try dsimp only
                              exact h12.trans (h3.trans
                                ((addErrorLine_ok _ _).trans (syncToStmt_ok _ _)))
                            · try dsimp only
                              exact h12.trans h3
                      · rw [if_neg hIdent]
                        rcases hE2 : pExpr f s1 with ⟨b2, s2⟩
                        have h2 := ihExpr s1
                        rw [hE2] at h2
                        have h12 := h1.trans h2
                        cases b2 with
                        | false =>
                          try dsimp only
                          exact h12.trans ((addErrorLine_ok _ _).trans (syncToStmt_ok _ _))
                        | true =>
                          try dsimp only
                          rcases hE3 : matchTok .T_SEMI s2 with ⟨b3, s3⟩
                          have h3 := matchTok_ok .T_SEMI s2
                          rw [hE3] at h3
                          cases b3
                          · try dsimp only
                            exact h12.trans (h3.trans
                              ((addErrorLine_ok _ _).trans (syncToStmt_ok _ _)))
                          · try dsimp only
                            exact h12.trans h3
    · -- pBlock
      intro st
      rw [pBlock]
      try dsimp only
      rcases hE : matchTok .T_LBRACE st with ⟨b, s⟩
      have h1 := matchTok_ok .T_LBRACE st
      rw [hE] at h1
      cases b
      · try dsimp only
        exact h1.trans (addErrorLine_ok _ _)
      · try dsimp only
        have hinj := injectParams_ok { s with vartable := s.vartable.push_scope }
        have hloop := ihBlockLoop (injectParams { s with vartable := s.vartable.push_scope })
        try dsimp only
        rcases hE2 : matchTok .T_RBRACE
            (pBlockLoop f (injectParams { s with vartable := s.vartable.push_scope }))
          with ⟨b2, s2⟩
        have h2 := matchTok_ok .T_RBRACE
          (pBlockLoop f (injectParams { s with vartable := s.vartable.push_scope }))
        rw [hE2] at h2
        have herr : ErrsOk st.errors → ErrsOk s2.errors := fun h =>
          h2.1 (hloop.1 (hinj.1 (h1.1 h)))
        have hlen : s2.vartable.scopes.length = st.vartable.scopes.length + 1 := by
          rw [h2.2.1, hloop.2.1, hinj.2.1, push_scope_length, h1.2.1]
        have htok : s2.tokens = st.tokens :=
          h2.2.2.trans (hloop.2.2.trans (hinj.2.2.trans h1.2.2))
        cases b2
        · try dsimp only
          refine ⟨fun h => (addErrorLine_ok s2.cur.line s2).1 (herr h), ?_, ?_⟩
          · have hlen2 : (addErrorLine s2.cur.line s2).vartable.scopes.length =
                st.vartable.scopes.length + 1 := by
              rw [(addErrorLine_ok s2.cur.line s2).2.1, hlen]
            exact pop_scope_length_succ hlen2
          · exact (addErrorLine_ok s2.cur.line s2).2.2.trans htok
        · try dsimp only
          exact ⟨herr, pop_scope_length_succ hlen, htok⟩
    · -- pBlockLoop
      intro st
      rw [pBlockLoop]
      split
      · try dsimp only
        rcases hE : pStmt f st with ⟨b, s⟩
        have h1 := ihStmt st
        rw [hE] at h1
        cases b
        · try dsimp only
          exact ((h1.trans (syncToStmt_ok f s)).trans (ihBlockLoop _))
        · try dsimp only
          exact h1.trans (ihBlockLoop s)
      · try dsimp only
        exact StOk.refl

theorem with_funcs_ok (st : PState) (l : List String) :
    StOk st { st with functions_declared := l } := ⟨id, Eq.refl _, Eq.refl _⟩

theorem with_reg_ok (st : PState) (a : List (String × FuncInfo)) (b : List String)
    (c : String) :
    StOk st { st with func_table := a, functions_declared := b, current_function := c } :=
  ⟨id, Eq.refl _, Eq.refl _⟩

theorem with_cf_ok (st : PState) (c : String) :
    StOk st { st with current_function := c } := ⟨id, Eq.refl _, Eq.refl _⟩

theorem registerFuncName_ok (st : PState) : StOk st (registerFuncName st) := by
  rw [registerFuncName]
  refine StOk.trans ?_ (with_funcs_ok _ _)
  split
  · exact addErrorLine_ok _ _
  · exact StOk.refl

theorem pParamLoop_ok : ∀ (f : Nat) (fi : FuncInfo) (st : PState),
    StOk st (pParamLoop f fi st).2 := by
  intro f
  induction f with
  | zero => intro fi st; exact StOk.refl
  | succ f ih =>
    intro fi st
    rw [pParamLoop]
    rcases hE : matchTok .T_KW_INT st with ⟨b, s1⟩
    have h1 := matchTok_ok .T_KW_INT st
    rw [hE] at h1
    cases b
    · try dsimp only
      exact h1.trans ((addErrorLine_ok _ _).trans (syncToStmt_ok _ _))
    · try dsimp only
      split
      · exact h1.trans ((addErrorLine_ok _ _).trans (syncToStmt_ok _ _))
      · try dsimp only
        rcases hE2 : matchTok .T_COMMA s1.advance with ⟨b2, s2⟩
        have h2 := matchTok_ok .T_COMMA s1.advance
        rw [hE2] at h2
        have h12 := h1.trans ((advance_ok s1).trans h2)
        cases b2
        · try dsimp only
          exact h12
        · try dsimp only
          exact h12.trans (ih _ _)

theorem registerFuncInfo_ok (fn : String) (fi : FuncInfo) (st : PState) :
    StOk st (registerFuncInfo fn fi st) := ⟨id, Eq.refl _, Eq.refl _⟩

theorem funcDefTail_ok (f : Nat) (ri : Bool) (dl : Nat) (fn : String) (st : PState) :
    StOk st (funcDefTail f ri dl fn st).2 := by
  rw [funcDefTail]
  rcases hpr : (if ¬ st.check .T_RPAREN = true then pParamLoop f ⟨fn, ri, [], dl⟩ st
      else (⟨fn, ri, [], dl⟩, st)) with ⟨fi1, s1⟩
  have h1 : StOk st s1 := by
    by_cases hc : ¬ st.check .T_RPAREN = true
    · rw [if_pos hc] at hpr
      have h := pParamLoop_ok f ⟨fn, ri, [], dl⟩ st
      rw [hpr] at h
      exact h
    · rw [if_neg hc] at hpr
      injection hpr with hfi hs
      subst hs
      exact StOk.refl
  try dsimp only
  rcases hE2 : matchTok .T_RPAREN s1 with ⟨b2, s2⟩
  have h2 := matchTok_ok .T_RPAREN s1
  rw [hE2] at h2
  have h12 := h1.trans h2
  cases b2
  · try dsimp only
    rcases hE3 : pBlock f (registerFuncInfo fn fi1 (addErrorLine s2.cur.line s2))
      with ⟨ok, s8⟩
    have h3 := (parser_ok f).2.2.2.2.2.2.2.2.2.2.2.2.2.2.2.1
      (registerFuncInfo fn fi1 (addErrorLine s2.cur.line s2))
    rw [hE3] at h3
    try dsimp only
    exact (((h12.trans (addErrorLine_ok s2.cur.line s2)).trans
      (registerFuncInfo_ok fn fi1 _)).trans h3).trans (with_cf_ok _ _)
  · try dsimp only
    rcases hE3 : pBlock f (registerFuncInfo fn fi1 s2) with ⟨ok, s8⟩
    have h3 := (parser_ok f).2.2.2.2.2.2.2.2.2.2.2.2.2.2.2.1 (registerFuncInfo fn fi1 s2)
    rw [hE3] at h3
    try dsimp only
    exact ((h12.trans (registerFuncInfo_ok fn fi1 s2)).trans h3).trans (with_cf_ok _ _)

theorem pFuncDef_ok (f : Nat) (st : PState) : StOk st (pFuncDef f st).2 := by
  cases f with
  | zero => exact StOk.refl
  | succ f =>
    rw [pFuncDef]
    split
    · exact StOk.refl
    · try dsimp only
      split
      · exact (advance_ok st).trans ((addErrorLine_ok _ _).trans (syncToStmt_ok _ _))
      · try dsimp only
        rcases hE : matchTok .T_LPAREN ((registerFuncName st.advance).advance) with ⟨b, s5⟩
        have h1 := matchTok_ok .T_LPAREN ((registerFuncName st.advance).advance)
        rw [hE] at h1
        have h0 := ((advance_ok st).trans ((registerFuncName_ok st.advance).trans
          (advance_ok _))).trans h1
        cases b
        · try dsimp only
          exact h0.trans ((addErrorLine_ok _ _).trans (syncToStmt_ok _ _))
        · try dsimp only
          exact h0.trans (funcDefTail_ok f _ _ _ s5)

theorem skipToTop_ok (f : Nat) (st : PState) : StOk st (skipToTop f st) := by
  induction f generalizing st with
  | zero => exact StOk.refl
  | succ f ih =>
    rw [skipToTop]
    split
    · exact (advance_ok st).trans (ih _)
    · exact StOk.refl

theorem pCompUnit_ok : ∀ (f : Nat) (st : PState), StOk st (pCompUnit f st) := by
  intro f
  induction f with
  | zero => intro st; exact StOk.refl
  | succ f ih =>
    intro st
    rw [pCompUnit]
    split
    · try dsimp only
      rcases hE : pFuncDef f st with ⟨b, s⟩
      have h1 := pFuncDef_ok f st
      rw [hE] at h1
      cases b
      · try dsimp only
        exact (h1.trans ((addErrorLine_ok _ _).trans (skipToTop_ok _ _))).trans (ih _)
      · try dsimp only
        exact h1.trans (ih _)
    · exact StOk.refl

theorem pParse_ok (f : Nat) (st : PState) : StOk st (pParse f st) := by
  rw [pParse]
  have h1 := pCompUnit_ok f st
  try dsimp only
  split
  · exact h1.trans (addErrorLine_ok _ _)
  · split
    · exact h1.trans (addErrorLine_ok _ _)
    · split
      · exact h1.trans (addErrorLine_ok _ _)
      · exact h1

/-! ## Claim C2 -/

/-- C2 is false on the code: for the input
`int f() {\nx = 1;\nreturn 0;\n}` the parser first records the
undeclared-variable error on line 2 and then the missing-`main` error on
the first token's line 1, so `get_errors` returns `[2, 1]`, which is not
non-decreasing. -/
theorem parser_error_lines_counterexample :
    (runParser 200 "int f() \x7b\nx = 1;\nreturn 0;\n\x7d").errors = [2, 1] ∧
    ¬ ((runParser 200 "int f() \x7b\nx = 1;\nreturn 0;\n\x7d").errors).Chain' (· ≤ ·) := by
  constructor
  · decide
  · intro h
    rw [(by decide :
      (runParser 200 "int f() \x7b\nx = 1;\nreturn 0;\n\x7d").errors = [2, 1])] at h
    simp [List.chain'_cons] at h

/-- C2 (amended): for every input and every fuel bound, no two consecutive
entries of the collected error-line list are equal (the
`add_error_line` guard deduplicates against the immediately preceding
entry); the list is however not always non-decreasing. -/
theorem parser_error_lines_amended :
    ∀ (src : String) (f : Nat), ((runParser f src).errors).Chain' (· ≠ ·) := by
  intro src f
  exact (pParse_ok f (initP (tokenize src))).1 List.chain'_nil

/-! ## Claim C4 -/

/-- C4 is false on the code as universally stated: when no `main` is
defined, `Parser::parse` records the line of the FIRST TOKEN, not always
line 1.  For the input `\nint f() { return 0; }` (code starting on line 2)
the recorded error line is 2, not 1. -/
theorem main_discipline_counterexample :
    (runParser 200 "\nint f() \x7b return 0; \x7d").errors = [2] := by
  decide

theorem tokenizeLoop_ne (f : Nat) (l : List Char) (ln : Nat) :
    tokenizeLoop f l ln ≠ [] := by
  cases f with
  | zero => simp [tokenizeLoop]
  | succ f =>
    rw [tokenizeLoop]
    try simp only []
    split
    · simp
    · split <;> simp

theorem tokenize_ne (s : String) : tokenize s ≠ [] :=
  tokenizeLoop_ne _ _ _

/-- C4 (amended): for EVERY input and fuel, after parsing the compilation
unit: a missing `main` records the line of the input's FIRST token (the
token list is never empty, `Lexer::tokenize` always appends `T_EOF`); a
`main` whose stored `FuncInfo` has a non-`int` return type or a non-empty
parameter list records the line on which `main` was declared; a well-formed
`main` adds no error.  The first token's line is 1 exactly when it sits on
line 1, as in the spec's example `int f() { return 0; }`, where the
program prints `reject` and then `1`. -/
theorem main_discipline_amended :
    (∀ (f : Nat) (src : String),
      ((pCompUnit f (initP (tokenize src))).functions_declared.contains "main") = false →
      (runParser f src).errors =
        (addErrorLine ((tokenize src).headD default).line
          (pCompUnit f (initP (tokenize src)))).errors)
    ∧ (∀ (f : Nat) (src : String) (fi : FuncInfo),
      ((pCompUnit f (initP (tokenize src))).functions_declared.contains "main") = true →
      (pCompUnit f (initP (tokenize src))).func_table.find? (fun p => p.1 = "main")
        = some ("main", fi) →
      (¬ fi.returns_int || fi.params.length ≠ 0) = true →
      (runParser f src).errors =
        (addErrorLine fi.declared_line (pCompUnit f (initP (tokenize src)))).errors)
    ∧ (∀ (f : Nat) (src : String) (fi : FuncInfo),
      ((pCompUnit f (initP (tokenize src))).functions_declared.contains "main") = true →
      (pCompUnit f (initP (tokenize src))).func_table.find? (fun p => p.1 = "main")
        = some ("main", fi) →
      (¬ fi.returns_int || fi.params.length ≠ 0) = false →
      (runParser f src).errors = (pCompUnit f (initP (tokenize src))).errors)
    ∧ programOutput 200 "int f() \x7b return 0; \x7d" = ["reject", "1"]
    ∧ (runParser 200 "int f() \x7b return 0; \x7d").errors = [1]
    ∧ (runParser 200 "int main(int a) \x7b return 0; \x7d").errors = [1]
    ∧ (runParser 200 "\nvoid main() \x7b return; \x7d").errors = [2]
    ∧ (runParser 200 "\nint f() \x7b return 0; \x7d").errors = [2] := by
  refine ⟨?_, ?_, ?_, by decide, by decide, by decide, by decide, by decide⟩
  · intro f src hmain
    unfold runParser pParse
    try simp only []
    rw [if_pos (show ¬ (pCompUnit f (initP (tokenize src))).functions_declared.contains
        "main" = true by rw [hmain]; exact Bool.false_ne_true)]
    rw [show (pCompUnit f (initP (tokenize src))).tokens = tokenize src from
      (pCompUnit_ok f (initP (tokenize src))).2.2]
    rw [if_neg (show ¬ (tokenize src).isEmpty = true by
      simp only [List.isEmpty_iff]
      exact tokenize_ne src)]
  · intro f src fi hmain hfind hbad
    unfold runParser pParse
    try simp only []
    rw [if_neg (show ¬ ¬ (pCompUnit f (initP (tokenize src))).functions_declared.contains
        "main" = true from fun h => h hmain)]
    rw [hfind]
    try dsimp only
    rw [if_pos (show (¬ fi.returns_int || fi.params.length ≠ 0) = true from hbad)]
  · intro f src fi hmain hfind hgood
    unfold runParser pParse
    try simp only []
    rw [if_neg (show ¬ ¬ (pCompUnit f (initP (tokenize src))).functions_declared.contains
        "main" = true from fun h => h hmain)]
    rw [hfind]
    try dsimp only
    rw [if_neg (show ¬ (¬ fi.returns_int || fi.params.length ≠ 0) = true by
      rw [hgood]
      exact Bool.false_ne_true)]

/-- C4 (witness): the amended rules at concrete inputs: the input
`\nint f() { return 0; }` defines no `main`, so the first token's line 2
is recorded; the input `\nvoid main() { return; }` declares a non-`int`
`main` on line 2, so its declaration line 2 is recorded. -/
theorem main_discipline_witness :
    ((runParser 200 "\nint f() \x7b return 0; \x7d").errors =
      (addErrorLine ((tokenize "\nint f() \x7b return 0; \x7d").headD default).line
        (pCompUnit 200 (initP (tokenize "\nint f() \x7b return 0; \x7d")))).errors)
    ∧ ((runParser 200 "\nvoid main() \x7b return; \x7d").errors =
      (addErrorLine (FuncInfo.mk "main" false [] 2).declared_line
        (pCompUnit 200 (initP (tokenize "\nvoid main() \x7b return; \x7d")))).errors) :=
  ⟨main_discipline_amended.1 200 "\nint f() \x7b return 0; \x7d" (by decide),
   main_discipline_amended.2.1 200 "\nvoid main() \x7b return; \x7d"
     (FuncInfo.mk "main" false [] 2) (by decide) (by decide) (by decide)⟩

/-! ## Claim C5 -/

theorem syncLoop_spec : ∀ (m : Nat) (st : PState) (j : Nat),
    st.pos ≤ j → j < st.tokens.length →
    st.cur = tokAt st.tokens st.pos →
    stopTok (tokAt st.tokens j).type = true →
    (∀ k, st.pos ≤ k → k < j → stopTok (tokAt st.tokens k).type = false) →
    j - st.pos ≤ m →
    syncLoop m st = { st with pos := j, cur := tokAt st.tokens j } := by
  intro m
  induction m with
  | zero =>
    intro st j hle hlt hcur hstop hmin hm
    have hj : j = st.pos := by omega
    subst hj
    rw [syncLoop, ← hcur]
  | succ m ih =>
    intro st j hle hlt hcur hstop hmin hm
    rw [syncLoop]
    by_cases hc : (st.check .T_EOF || isSyncTok st.cur.type) = true
    · rw [if_pos hc]
      have hj : j = st.pos := by
        by_contra hne
        have hklt : st.pos < j := by omega
        have hmn := hmin st.pos (Nat.le_refl _) hklt
        rw [← hcur] at hmn
        rw [(by rfl : stopTok st.cur.type =
          (st.check .T_EOF || isSyncTok st.cur.type))] at hmn
        rw [hmn] at hc
        cases hc
      subst hj
      rw [← hcur]
    · rw [if_neg hc]
      have hlt2 : st.pos < j := by
        rcases Nat.lt_or_ge st.pos j with h | h
        · exact h
        · have hj : j = st.pos := by omega
          subst hj
          rw [← hcur] at hstop
          rw [(by rfl : stopTok st.cur.type =
            (st.check .T_EOF || isSyncTok st.cur.type))] at hstop
          exact absurd hstop hc
      have hadv : st.advance =
          { st with pos := st.pos + 1, cur := tokAt st.tokens (st.pos + 1) } := by
        unfold PState.advance
        rw [if_pos (by omega : st.pos + 1 < st.tokens.length)]
      rw [hadv]
      exact ih { st with pos := st.pos + 1, cur := tokAt st.tokens (st.pos + 1) } j
        (show st.pos + 1 ≤ j by omega) hlt rfl hstop
        (fun k h1 h2 => hmin k (Nat.le_of_succ_le (show st.pos + 1 ≤ k from h1)) h2)
        (show j - (st.pos + 1) ≤ m by omega)

/-- C5 is false on the code: the synchronization set also contains `{`
(`T_LBRACE`).  On the token stream `* { ; EOF` the skip stops at position
1 (the `{`), a token that the claim's stop set does not contain, and never
reaches the `;` the claim would have it stop at and consume. -/
theorem sync_to_stmt_counterexample :
    (syncToStmt 10 (initP [Token.mk .T_MUL "*" 1, Token.mk .T_LBRACE "\x7b" 1,
      Token.mk .T_SEMI ";" 1, Token.mk .T_EOF "" 1])).pos = 1 ∧
    (tokAt [Token.mk .T_MUL "*" 1, Token.mk .T_LBRACE "\x7b" 1,
      Token.mk .T_SEMI ";" 1, Token.mk .T_EOF "" 1] 1).type = .T_LBRACE ∧
    specSyncStop .T_LBRACE = false ∧
    isSyncTok .T_LBRACE = true := by
  decide

/-- C5 (amended): `Parser::sync_to_stmt` skips tokens until, and stops
exactly at, the first token that is `;`, `{`, `}`, or a statement-starter
keyword (`int`, `void`, `if`, `while`, `return`, `break`, `continue`), or
until end of input; if the token it stopped at is `;` it additionally
consumes that semicolon. -/
theorem sync_to_stmt_amended (m : Nat) (st : PState) (j : Nat)
    (hle : st.pos ≤ j) (hlt : j < st.tokens.length)
    (hcur : st.cur = tokAt st.tokens st.pos)
    (hstop : stopTok (tokAt st.tokens j).type = true)
    (hmin : ∀ k, st.pos ≤ k → k < j → stopTok (tokAt st.tokens k).type = false)
    (hm : j - st.pos ≤ m) :
    syncToStmt m st =
      (if (tokAt st.tokens j).type = .T_SEMI
       then ({ st with pos := j, cur := tokAt st.tokens j } : PState).advance
       else { st with pos := j, cur := tokAt st.tokens j }) := by
  simp only [syncToStmt]
  rw [syncLoop_spec m st j hle hlt hcur hstop hmin hm]
  by_cases hsemi : (tokAt st.tokens j).type = .T_SEMI
  · rw [if_pos (show PState.check _ .T_SEMI = true by simp [PState.check, hsemi]),
      if_pos hsemi]
  · rw [if_neg (show ¬ PState.check _ .T_SEMI = true by simp [PState.check, hsemi]),
      if_neg hsemi]

/-- C5 (witness): the amended synchronization fact applied to the concrete
token stream `* ; EOF`: the skip stops at the `;` at position 1 and then
consumes it. -/
theorem sync_to_stmt_witness :
    syncToStmt 10 (initP syncWitnessToks) =
      (if (tokAt (initP syncWitnessToks).tokens 1).type = .T_SEMI
       then ({ initP syncWitnessToks with
                pos := 1, cur := tokAt (initP syncWitnessToks).tokens 1 } : PState).advance
       else { initP syncWitnessToks with
              pos := 1, cur := tokAt (initP syncWitnessToks).tokens 1 }) :=
  sync_to_stmt_amended 10 _ 1 (by decide) (by decide) (by decide) (by decide)
    (fun k h1 h2 => by
      have hk : k = 0 := by omega
      subst hk
      decide)
    (by decide)

/-! ## Claim C7 -/

/-- C7: in `Parser::PrimaryExpr`, a parsed call `f()` records an error at
the call's line exactly when `f` is neither in `functions_declared` (the
names of all earlier function definitions, including the enclosing one)
nor equal to `current_function`; in particular self-recursion never
produces an error, and the specification's factorial program is accepted
with an empty error list. -/
theorem call_check_claim :
    (∀ (st : PState) (f : Nat) (name : String) (ln : Nat),
      st.cur = tokAt st.tokens st.pos →
      tokAt st.tokens st.pos = Token.mk .T_ID name ln →
      (tokAt st.tokens (st.pos + 1)).type = .T_LPAREN →
      (tokAt st.tokens (st.pos + 2)).type = .T_RPAREN →
      st.pos + 3 < st.tokens.length →
      ((st.functions_declared.contains name || name = st.current_function) = true →
        (pPrimary (f + 1) st).2.errors = st.errors)
      ∧ ((st.functions_declared.contains name || name = st.current_function) = false →
        (pPrimary (f + 1) st).2.errors = (addErrorLine ln st).errors))
    ∧ (runParser 300 factSrc).errors = [] ∧ programOutput 300 factSrc = ["accept"] := by
  refine ⟨?_, by decide, by decide⟩
  intro st f name ln hcur htok hl1 hr2 hlen
  have hlen1 : st.pos + 1 < st.tokens.length := by omega
  have hlen2 : st.pos + 2 < st.tokens.length := by omega
  have ha1 : st.advance =
      { st with pos := st.pos + 1, cur := tokAt st.tokens (st.pos + 1) } := by
    unfold PState.advance
    rw [if_pos hlen1]
  have ha2 : ({ st with pos := st.pos + 1, cur := tokAt st.tokens (st.pos + 1) } : PState).advance =
      { st with pos := st.pos + 2, cur := tokAt st.tokens (st.pos + 2) } := by
    unfold PState.advance
    rw [if_pos (show st.pos + 1 + 1 < st.tokens.length by omega)]
  have ha3 : ({ st with pos := st.pos + 2, cur := tokAt st.tokens (st.pos + 2) } : PState).advance =
      { st with pos := st.pos + 3, cur := tokAt st.tokens (st.pos + 3) } := by
    unfold PState.advance
    rw [if_pos (show st.pos + 2 + 1 < st.tokens.length by omega)]
  have hm1 : matchTok .T_LPAREN st.advance =
      (true, ({ st with pos := st.pos + 2, cur := tokAt st.tokens (st.pos + 2) } : PState)) := by
    rw [ha1]
    unfold matchTok
    have hc : PState.check
        ({ st with pos := st.pos + 1, cur := tokAt st.tokens (st.pos + 1) } : PState)
        .T_LPAREN = true := by
      simp [PState.check, hl1]
    rw [if_pos hc, ha2]
  have hm2 : matchTok .T_RPAREN
      ({ st with pos := st.pos + 2, cur := tokAt st.tokens (st.pos + 2) } : PState) =
      (true, ({ st with pos := st.pos + 3, cur := tokAt st.tokens (st.pos + 3) } : PState)) := by
    unfold matchTok
    have hc : PState.check
        ({ st with pos := st.pos + 2, cur := tokAt st.tokens (st.pos + 2) } : PState)
        .T_RPAREN = true := by
      simp [PState.check, hr2]
    rw [if_pos hc, ha3]
  rw [pPrimary]
  rw [if_pos (show st.check .T_ID = true by simp [PState.check, hcur, htok])]
  have hname : st.cur.lexeme = name := by rw [hcur, htok]
  have hline : st.cur.line = ln := by rw [hcur, htok]
  rw [hname, hline]
  simp only []
  rw [hm1]
  try dsimp only
  have hc2 : PState.check
      ({ st with pos := st.pos + 2, cur := tokAt st.tokens (st.pos + 2) } : PState)
      .T_RPAREN = true := by
    simp [PState.check, hr2]
  rw [if_pos hc2]
  try dsimp only
  rw [hm2]
  try dsimp only
  constructor
  · intro hT
    rw [if_pos (show (st.functions_declared.contains name
        || decide (name = st.current_function)) = true from hT)]
  · intro hF
    rw [if_neg (show ¬ (st.functions_declared.contains name
        || decide (name = st.current_function)) = true by rw [hF]; exact Bool.false_ne_true)]
    unfold addErrorLine
    try dsimp only
    split
    · rfl
    · rfl

/-- C7 (witness): the call-check fact applied to the concrete token stream
`f ( ) ; EOF` in the initial parser state, where `f` is undeclared and is
not the current function: the error at the call's line 1 is recorded. -/
theorem call_check_witness :
    (pPrimary 6 (initP [Token.mk .T_ID "f" 1, Token.mk .T_LPAREN "(" 1,
        Token.mk .T_RPAREN ")" 1, Token.mk .T_SEMI ";" 1, Token.mk .T_EOF "" 1])).2.errors =
      (addErrorLine 1 (initP [Token.mk .T_ID "f" 1, Token.mk .T_LPAREN "(" 1,
        Token.mk .T_RPAREN ")" 1, Token.mk .T_SEMI ";" 1, Token.mk .T_EOF "" 1])).errors :=
  (call_check_claim.1 _ 5 "f" 1 (by decide) (by decide) (by decide) (by decide)
    (by decide)).2 (by decide)

/-! ## Claim C9 -/

/-- C9: `Parser::Block` leaves the scope-stack depth exactly as it found
it on every return path (each consumed `{` pushes one scope that is popped
again on both the success path and the missing-`}` path), and consequently
after `Parser::parse` completes the symbol table holds exactly the single
scope installed by its constructor. -/
theorem parser_scope_balance :
    (∀ (f : Nat) (st : PState),
        ((pBlock f st).2).vartable.scopes.length = st.vartable.scopes.length)
    ∧ (∀ (src : String) (f : Nat), (runParser f src).vartable.scopes.length = 1) := by
  constructor
  · intro f st
    exact ((parser_ok f).2.2.2.2.2.2.2.2.2.2.2.2.2.2.2.1 st).2.1
  · intro src f
    exact (pParse_ok f (initP (tokenize src))).2.1

/-! ## Claim C10 -/

/-- C10: redeclaring a name that already exists in the current scope leaves
the symbol table unchanged — `SymTable::declare_var` returns `false`
together with the original table, so the earlier entry and its declared
line survive — and `Parser::Stmt`, which discards the result of
`declare_var`, records no error line: parsing `int x = 5;` with `x`
already declared at line 7 succeeds with an empty error list and the table
still mapping `x` to line 7. -/
theorem redeclare_first_wins :
    (∀ (t : SymTable) (name : String) (ln : Nat) (sc : List (String × Nat))
        (rest : List (List (String × Nat))),
      t.scopes = sc :: rest → scopeHas sc name = true →
      t.declare_var name ln = (false, t))
    ∧ (pStmt 20 redeclState).1 = true
    ∧ (pStmt 20 redeclState).2.errors = []
    ∧ (pStmt 20 redeclState).2.vartable = ⟨[[("x", 7)]]⟩ := by
  refine ⟨?_, by decide, by decide, by decide⟩
  intro t name ln sc rest hsc hhas
  unfold SymTable.declare_var
  rw [hsc]
  dsimp only
  rw [if_pos hhas]

/-- C10 (witness): the first-declaration-wins fact at a concrete table
whose current scope already holds `x` at line 7: a redeclaration at
line 9 is dropped. -/
theorem redeclare_first_wins_witness :
    SymTable.declare_var ⟨[[("x", 7)]]⟩ "x" 9 = (false, ⟨[[("x", 7)]]⟩) :=
  redeclare_first_wins.1 ⟨[[("x", 7)]]⟩ "x" 9 [("x", 7)] [] (by decide) (by decide)

/-! ## Claim C8 -/

/-- C8 (counterexample): successive definitions in one scope do NOT always
sit one machine word apart.  `allocate_stack_space` bumps the per-scope
counter before `Scope::define` checks for duplicates, so a failed
redefinition burns a stack slot: defining `x`, then `x` again (which
fails), then `y` in a fresh table leaves `x` at offset `-4` and `y` at
offset `-12`, although `y` is the very next symbol defined after `x`. -/
theorem stack_offset_counterexample :
    ((((SymbolTable.init.define_variable "x" DataType.INT).2.define_variable "x"
          DataType.INT).2.define_variable "y" DataType.INT).2.scopes.headD
        ⟨0, []⟩).symbols.map (fun p => (p.1, p.2.stack_offset)) =
      [("x", -4), ("y", -12)]
    ∧ ((SymbolTable.init.define_variable "x" DataType.INT).2.define_variable "x"
        DataType.INT).1 = false
    ∧ ((-12 : Int) ≠ -4 - 4) := by
  decide

/-- C8 (amended): every symbol receives its offset at the moment
`allocate_stack_space` runs for it: with the current counter at `n ≥ 0`, a
local variable gets offset `-(n+1)·4` (negative, a multiple of 4) and a
parameter gets `(n+1)·4` (positive, a multiple of 4), and in both cases
the counter advances to `n+1`; but the slot is consumed by
`define_variable` even when the definition itself fails on a duplicate
name, so only in the absence of failed redefinitions are the offsets of
successive symbols one 4-byte word apart. -/
theorem stack_offset_amended :
    (∀ (t : SymbolTable) (sym : Symbol) (n : Int) (ns : List Int),
      t.scope_stack_size = n :: ns → 0 ≤ n →
      (sym.symbol_type = SymbolType.VARIABLE →
        t.allocate_stack_space sym =
          ({ sym with stack_offset := -((n + 1) * 4) },
           { t with scope_stack_size := (n + 1) :: ns })
        ∧ -((n + 1) * 4) < 0 ∧ (-((n + 1) * 4)) % 4 = 0)
      ∧ (sym.symbol_type = SymbolType.PARAMETER →
        t.allocate_stack_space sym =
          ({ sym with stack_offset := (n + 1) * 4 },
           { t with scope_stack_size := (n + 1) :: ns })
        ∧ 0 < (n + 1) * 4 ∧ ((n + 1) * 4) % 4 = 0))
    ∧ (∀ (t : SymbolTable) (name : String) (ty : DataType) (cur : Scope)
        (rest : List Scope),
      t.scopes = cur :: rest →
      ((t.define_variable name ty).2).scope_stack_size =
        (t.scope_stack_size.headD 0 + 1) :: t.scope_stack_size.tail) := by
  constructor
  · intro t sym n ns hss hn
    constructor
    · intro hty
      refine ⟨?_, by omega, by omega⟩
      unfold SymbolTable.allocate_stack_space
      rw [hty]
      try dsimp only
      rw [hss]
      rfl
    · intro hty
      refine ⟨?_, by omega, by omega⟩
      unfold SymbolTable.allocate_stack_space
      rw [hty]
      try dsimp only
      rw [hss]
      rfl
  · intro t name ty cur rest hsc
    unfold SymbolTable.define_variable
    rw [hsc]
    simp only []
    unfold SymbolTable.allocate_stack_space
    try dsimp only

/-- C8 (witness): the amended offset discipline at the initial table: the
first local variable `x` is placed at offset `-4` with the counter at `1`,
and a `define_variable` call advances the counter to `1` as well. -/
theorem stack_offset_witness :
    SymbolTable.init.allocate_stack_space ⟨"x", SymbolType.VARIABLE, DataType.INT, 0, 0, []⟩ =
      (⟨"x", SymbolType.VARIABLE, DataType.INT, 0, -4, []⟩, ⟨[⟨0, []⟩], [1], 1⟩)
    ∧ ((SymbolTable.init.define_variable "x" DataType.INT).2).scope_stack_size = [1] := by
  constructor
  · exact ((stack_offset_amended.1 SymbolTable.init
      ⟨"x", SymbolType.VARIABLE, DataType.INT, 0, 0, []⟩ 0 [] rfl (by decide)).1
      rfl).1.trans (by decide)
  · exact (stack_offset_amended.2 SymbolTable.init "x" DataType.INT ⟨0, []⟩ []
      rfl).trans (by decide)

end ToyC
